import Mathlib

/-!
# smartBoard backend (`src/backend/main.go`): a shallow embedding

The HTTP handlers of the kanban backend are embedded as pure functions from the
request data and the contents of the relational store to a response and the new
contents of the store.

Modelling conventions
* The PostgreSQL database is the record `Store`: one list of rows per table, in
  insertion order.  Its schema is not part of the source file, so columns are
  taken to hold exactly the values the handlers pass (text columns, no foreign
  key or format constraint), `assignee` is nullable as the handlers scan it into
  a `sql.NullString`, and a statement only fails where a `QueryRow` finds no row.
* Identifiers produced by `RETURNING id` come from the counter `Store.nextId`.
* `time.Now()` and SQL `NOW()` are the parameter `now` of a handler.
* A request body is given as the result of `json.NewDecoder(..).Decode`:
  `none` when decoding fails, `some v` for the decoded value.
* The request context values `role` and `userId` set by `authMiddleware` are
  explicit parameters of the handlers.
-/

namespace SmartBoard

/-! ## Data model -/

/-- Row of the `users` table, Go struct `User`. -/
structure User where
  ID : String
  Username : String
  Email : String
  Password : String
  Role : String
  CreatedAt : Nat
deriving DecidableEq, Repr

/-- Go struct `Comment`, as serialised in a task. -/
structure Comment where
  ID : String
  Content : String
  Author : String
  CreatedAt : Nat
deriving DecidableEq, Repr

/-- Go struct `Task`; `Assignee` is the empty string when there is none. -/
structure Task where
  ID : String
  Title : String
  Description : String
  State : String
  Priority : Int
  Assignee : String
  Comments : List Comment
  CreatedAt : Nat
  UpdatedAt : Nat
deriving DecidableEq, Repr

/-- Go struct `Notification`, also the row of the `notifications` table. -/
structure Notification where
  ID : String
  UserID : String
  Message : String
  Read : Bool
  CreatedAt : Nat
deriving DecidableEq, Repr

/-- Go struct `Column`. -/
structure Column where
  ID : String
  Title : String
  TaskIDs : List String
deriving DecidableEq, Repr

/-- Row of the query `SELECT id, title, position FROM columns ORDER BY position`. -/
structure ColumnRow where
  ID : String
  Title : String
  Position : Int
deriving DecidableEq, Repr

/-- Row of the query joining `tasks` with the username of the assignee
(`LEFT JOIN users`, so `Assignee` is `none` when no user matches). -/
structure TaskJoinRow where
  ID : String
  Title : String
  Description : String
  State : String
  Priority : Int
  Assignee : Option String
  CreatedAt : Nat
  UpdatedAt : Nat
deriving DecidableEq, Repr

/-- Go struct `Claims` without the embedded standard claims. -/
structure Claims where
  UserID : String
  Role : String
deriving DecidableEq, Repr

/-- Go struct `RegisterRequest`. -/
structure RegisterRequest where
  Username : String
  Email : String
  Password : String
deriving DecidableEq, Repr

/-- Row of the `tasks` table: the columns the handlers read and write.
`Assignee` is SQL-nullable (`none` is NULL). -/
structure TaskRow where
  ID : String
  Title : String
  Description : String
  State : String
  Priority : Int
  Assignee : Option String
  CreatedBy : String
  CreatedAt : Nat
  UpdatedAt : Nat
deriving DecidableEq, Repr

/-- Row of the `comments` table. -/
structure CommentRow where
  ID : String
  TaskID : String
  Content : String
  Author : String
  CreatedAt : Nat
deriving DecidableEq, Repr

/-- Contents of the database. -/
structure Store where
  users : List User
  tasks : List TaskRow
  comments : List CommentRow
  notifications : List Notification
  nextId : Nat
deriving DecidableEq, Repr

/-! ## Go maps and decoded JSON -/

/-- A Go `map[string]β`, as an association list in which the first entry of a
key is the one that counts. -/
structure GoMap (β : Type) where
  entries : List (String × β)
deriving DecidableEq, Repr

/-- Entries after `m[k] = v`: the entry of `k` is replaced, or a new one is added. -/
def setEntries {β : Type} (k : String) (v : β) : List (String × β) → List (String × β)
  | [] => [(k, v)]
  | e :: es => if e.1 = k then (k, v) :: es else e :: setEntries k v es

namespace GoMap

/-- The empty map, `make(map[string]β)` (also a nil map). -/
def empty {β : Type} : GoMap β := ⟨[]⟩

/-- The two-valued lookup `v, ok := m[k]`. -/
def get? {β : Type} (m : GoMap β) (k : String) : Option β :=
  (m.entries.find? (fun e => decide (e.1 = k))).map Prod.snd

/-- The test `_, ok := m[k]`. -/
def contains {β : Type} (m : GoMap β) (k : String) : Bool :=
  (m.get? k).isSome

/-- The keys of the map, each once. -/
def keys {β : Type} (m : GoMap β) : List String :=
  (m.entries.map Prod.fst).dedup

/-- Go `len(m)`: the number of keys. -/
def len {β : Type} (m : GoMap β) : Nat :=
  m.keys.length

/-- The assignment `m[k] = v`. -/
def set {β : Type} (m : GoMap β) (k : String) (v : β) : GoMap β :=
  ⟨setEntries k v m.entries⟩

end GoMap

/-- Go struct `Board`. -/
structure Board where
  Tasks : GoMap Task
  Columns : GoMap Column
  ColumnOrder : List String
deriving DecidableEq, Repr

/-- A value decoded by `encoding/json` into `interface{}`.  A JSON number is
decoded into a `float64`; a finite `float64` is `mant * 2 ^ exp`. -/
inductive JVal where
  | null : JVal
  | bool (b : Bool) : JVal
  | num (mant : Int) (exp : Int) : JVal
  | str (s : String) : JVal
  | arr (items : List JVal) : JVal
  | obj (members : List (String × JVal)) : JVal

/-- The type assertion `v.(string)` on the result of a map lookup. -/
def asString : Option JVal → Option String
  | some (JVal.str s) => some s
  | _ => none

/-- The integer part of the `float64` `mant * 2 ^ exp`: the value cut toward
zero. -/
def truncFloat (m e : Int) : Int :=
  if 0 ≤ e then m * 2 ^ e.toNat else Int.tdiv m (2 ^ (-e).toNat)

/-- Go `int(f)` for a `float64` whose integer part is `v`, with `int` 64 bits
wide: `v` itself when it is in the range of `int`.  Out of that range Go leaves
the result to the implementation; the model gives the least `int`, which is the
result on amd64. -/
def toInt64 (v : Int) : Int :=
  if -(2 ^ 63) ≤ v ∧ v < 2 ^ 63 then v else -(2 ^ 63)

/-- The type assertion `v.(float64)` followed by the conversion `int(..)`. -/
def asInt : Option JVal → Option Int
  | some (JVal.num m e) => some (toInt64 (truncFloat m e))
  | _ => none

/-! ## Responses -/

/-- What a handler writes as response body. -/
inductive Body where
  | error (msg : String) : Body
  | message (msg : String) : Body
  | task (t : Task) : Body
  | board (b : Board) : Body
deriving DecidableEq, Repr

/-- Status code and body of a response. -/
structure Response where
  status : Nat
  body : Body
deriving DecidableEq, Repr

/-! ## Store statements -/

/-- The statement `INSERT INTO notifications (user_id, message, read, created_at)
VALUES (userID, msg, false, now)`. -/
def insertNotification (s : Store) (userID msg : String) (now : Nat) : Store :=
  { s with
    notifications := s.notifications ++ [⟨toString s.nextId, userID, msg, false, now⟩]
    nextId := s.nextId + 1 }

/-- The query `SELECT .. FROM tasks WHERE id = taskID`, first row. -/
def findTask (s : Store) (taskID : String) : Option TaskRow :=
  s.tasks.find? (fun t => decide (t.ID = taskID))

/-- The query `SELECT username FROM users WHERE id = userID`, first row. -/
def findUsername (s : Store) (userID : String) : Option String :=
  (s.users.find? (fun u => decide (u.ID = userID))).map User.Username

/-- The notifications a handler added when it took the store from `s` to `t`. -/
def emitted (s t : Store) : List Notification :=
  t.notifications.drop s.notifications.length

/-- The `SET` clause that `updateTaskHandler` builds: one optional value per column. -/
structure UpdateQuery where
  state : Option String
  title : Option String
  description : Option String
  priority : Option Int
  assignee : Option String
deriving DecidableEq, Repr

/-- One row after `UPDATE tasks SET updated_at = NOW(), ..`. -/
def applyUpdate (q : UpdateQuery) (now : Nat) (t : TaskRow) : TaskRow :=
  { t with
    State := q.state.getD t.State
    Title := q.title.getD t.Title
    Description := q.description.getD t.Description
    Priority := q.priority.getD t.Priority
    Assignee := match q.assignee with
      | some a => some a
      | none => t.Assignee
    UpdatedAt := now }

/-- The statement `UPDATE tasks SET .. WHERE id = taskID`. -/
def execUpdate (s : Store) (q : UpdateQuery) (taskID : String) (now : Nat) : Store :=
  { s with tasks := s.tasks.map (fun t => if t.ID = taskID then applyUpdate q now t else t) }

/-- The Go `Task` scanned from a row by `updateTaskHandler`, before the assignee
is resolved: `Assignee` and `Comments` keep their zero values. -/
def taskOfRow (t : TaskRow) : Task :=
  ⟨t.ID, t.Title, t.Description, t.State, t.Priority, "", [], t.CreatedAt, t.UpdatedAt⟩

/-! ## Task handlers -/

/-- Handler `createTaskHandler`. -/
def createTaskHandler (s : Store) (role userID : String) (body : Option Task) (now : Nat) :
    Response × Store :=
  if role ≠ "admin" then (⟨403, Body.error "Unauthorized"⟩, s)
  else
    match body with
    | none => (⟨400, Body.error "invalid request body"⟩, s)
    | some task =>
      let id := toString s.nextId
      let s1 : Store :=
        { s with
          tasks := s.tasks ++ [⟨id, task.Title, task.Description, task.State, task.Priority,
            some task.Assignee, userID, now, now⟩]
          nextId := s.nextId + 1 }
      let task1 : Task := { task with ID := id, CreatedAt := now, UpdatedAt := now }
      if task1.Assignee ≠ "" then
        let task2 : Task :=
          match findUsername s1 task1.Assignee with
          | some username => { task1 with Assignee := username }
          | none => task1
        let s2 := insertNotification s1 task2.Assignee
          ("Вам назначена новая задача: " ++ task2.Title) now
        (⟨201, Body.task task2⟩, s2)
      else (⟨201, Body.task task1⟩, s1)

/-- The permission test of `updateTaskHandler`: true when the request is refused. -/
def updateForbidden (role : String) (updates : GoMap JVal) : Bool :=
  decide (role ≠ "admin") && (!updates.contains "state" || decide (updates.len > 1))

/-- The `state` block of `updateTaskHandler` (source lines 568-584): when the
body carries a string `state` different from the stored one and the stored
assignee is not NULL, a notification for the stored assignee is inserted. -/
def notifyStateChange (s : Store) (old : TaskRow) (updates : GoMap JVal) (now : Nat) : Store :=
  match asString (updates.get? "state") with
  | some state =>
    if state ≠ old.State ∧ old.Assignee.isSome then
      insertNotification s (old.Assignee.getD "")
        ("Статус вашей задачи изменен на: " ++ state) now
    else s
  | none => s

/-- The `assignee` block of `updateTaskHandler` (source lines 604-624): when the
body carries a non-empty string `assignee` different from the stored one, the
title of the task is read and a notification for the new assignee is inserted. -/
def notifyAssigneeChange (s : Store) (taskID : String) (old : TaskRow) (updates : GoMap JVal)
    (now : Nat) : Store :=
  match asString (updates.get? "assignee") with
  | some assignee =>
    if assignee ≠ "" ∧ (old.Assignee.isNone ∨ assignee ≠ old.Assignee.getD "") then
      match findTask s taskID with
      | some t => insertNotification s assignee ("Вам назначена задача: " ++ t.Title) now
      | none => s
    else s
  | none => s

/-- The `SET` clause built from the body (source lines 568-607). -/
def buildQuery (updates : GoMap JVal) : UpdateQuery :=
  ⟨asString (updates.get? "state"), asString (updates.get? "title"),
    asString (updates.get? "description"), asInt (updates.get? "priority"),
    asString (updates.get? "assignee")⟩

/-- The end of `updateTaskHandler` (source lines 629-647): the row returned by the
`UPDATE .. RETURNING` statement, with the assignee resolved to a username. -/
def respondUpdated (s : Store) (taskID : String) : Response :=
  match findTask s taskID with
  | none => ⟨500, Body.error "Error updating task"⟩
  | some row =>
    match row.Assignee with
    | some newAssigneeID =>
      match findUsername s newAssigneeID with
      | some username => ⟨200, Body.task { taskOfRow row with Assignee := username }⟩
      | none => ⟨200, Body.task (taskOfRow row)⟩
    | none => ⟨200, Body.task (taskOfRow row)⟩

/-- Handler `updateTaskHandler`. -/
def updateTaskHandler (s : Store) (role taskID : String) (body : Option (GoMap JVal))
    (now : Nat) : Response × Store :=
  match body with
  | none => (⟨400, Body.error "invalid request body"⟩, s)
  | some updates =>
    if updateForbidden role updates then
      (⟨403, Body.error "Unauthorized: Regular users can only update task state"⟩, s)
    else
      match findTask s taskID with
      | none => (⟨404, Body.error "Task not found"⟩, s)
      | some old =>
        let s1 := notifyStateChange s old updates now
        let s2 := notifyAssigneeChange s1 taskID old updates now
        let s3 := execUpdate s2 (buildQuery updates) taskID now
        (respondUpdated s3 taskID, s3)

/-- Modelled from the spec: the schema of the `comments` table is not in the
source file; a comment is "deleted when its Task is deleted (cascade)". -/
def cascadeComments (comments : List CommentRow) (taskID : String) : List CommentRow :=
  comments.filter (fun c => decide (c.TaskID ≠ taskID))

/-- Handler `deleteTaskHandler`: the statement `DELETE FROM tasks WHERE id = taskID`
runs for an admin, whether or not the task exists. -/
def deleteTaskHandler (s : Store) (role taskID : String) : Response × Store :=
  if role ≠ "admin" then (⟨403, Body.error "Unauthorized"⟩, s)
  else
    (⟨200, Body.message ("Task " ++ taskID ++ " deleted successfully")⟩,
      { s with
        tasks := s.tasks.filter (fun t => decide (t.ID ≠ taskID))
        comments := cascadeComments s.comments taskID })

/-- The comment query of `getTaskHandler` (source lines 451-458): the comments of
the task whose author is a user (`JOIN users`), newest first, with the username
of the author. -/
def queryComments (s : Store) (taskID : String) : List Comment :=
  ((s.comments.filter (fun c => decide (c.TaskID = taskID))).insertionSort
    (fun a b => b.CreatedAt ≤ a.CreatedAt)).filterMap
    (fun c => (findUsername s c.Author).map (fun name => ⟨c.ID, c.Content, name, c.CreatedAt⟩))

/-- Handler `getTaskHandler`: the task row joined with the username of its
assignee (`LEFT JOIN users`, NULL when there is no such user), then its comments. -/
def getTaskHandler (s : Store) (taskID : String) : Response :=
  match findTask s taskID with
  | none => ⟨404, Body.error "Task not found"⟩
  | some row =>
    let assignee : Option String := row.Assignee.bind (findUsername s)
    ⟨200, Body.task ⟨row.ID, row.Title, row.Description, row.State, row.Priority,
      assignee.getD "", queryComments s taskID, row.CreatedAt, row.UpdatedAt⟩⟩

/-! ## Registration -/

/-- Handler `registerHandler`. -/
def registerHandler (s : Store) (body : Option RegisterRequest) (now : Nat) : Response × Store :=
  match body with
  | none => (⟨400, Body.error "invalid request body"⟩, s)
  | some req =>
    if (s.users.filter (fun u => decide (u.Email = req.Email))).length > 0 then
      (⟨400, Body.error "Email already in use"⟩, s)
    else
      let role := if s.users.length = 0 then "admin" else "user"
      (⟨201, Body.message "User registered successfully"⟩,
        { s with
          users := s.users ++
            [⟨toString s.nextId, req.Username, req.Email, req.Password, role, now⟩]
          nextId := s.nextId + 1 })

/-- A sequence of register requests (body and arrival time) applied one after
another: the responses in order, and the final store. -/
def registerAll (s : Store) : List (Option RegisterRequest × Nat) → List Response × Store
  | [] => ([], s)
  | r :: rs =>
    let out := registerHandler s r.1 r.2
    let rest := registerAll out.2 rs
    (out.1 :: rest.1, rest.2)

/-- The number of requests answered with 201 (created). -/
def created (rs : List Response) : Nat :=
  (rs.filter (fun r => decide (r.status = 201))).length

/-- A store with no user. -/
def noUsers (tasks : List TaskRow) (comments : List CommentRow)
    (notifications : List Notification) (nextId : Nat) : Store :=
  ⟨[], tasks, comments, notifications, nextId⟩

/-! ## Notification inbox -/

/-- Handler `markNotificationReadHandler`: the `UPDATE` statement runs, then the
number of affected rows decides the response. -/
def markNotificationReadHandler (s : Store) (userID notificationID : String) :
    Response × Store :=
  let rowsAffected :=
    (s.notifications.filter
      (fun n => decide (n.ID = notificationID ∧ n.UserID = userID))).length
  let s1 : Store :=
    { s with
      notifications := s.notifications.map
        (fun n => if n.ID = notificationID ∧ n.UserID = userID then { n with Read := true }
          else n) }
  if rowsAffected = 0 then
    (⟨404, Body.error "Notification not found or not owned by user"⟩, s1)
  else (⟨200, Body.message "Notification marked as read"⟩, s1)

/-! ## Board assembly -/

/-- First loop of `getBoardHandler` (source lines 338-351). -/
def scanColumns : List ColumnRow → GoMap Column × List String → GoMap Column × List String
  | [], acc => acc
  | r :: rs, acc =>
    scanColumns rs (acc.1.set r.ID ⟨r.ID, r.Title, []⟩, acc.2 ++ [r.ID])

/-- The Go `Task` scanned from a joined row (source lines 368-377). -/
def taskOfJoinRow (r : TaskJoinRow) : Task :=
  ⟨r.ID, r.Title, r.Description, r.State, r.Priority, r.Assignee.getD "", [],
    r.CreatedAt, r.UpdatedAt⟩

/-- Second loop of `getBoardHandler` (source lines 366-386). -/
def scanTasks : List TaskJoinRow → GoMap Task × GoMap Column → GoMap Task × GoMap Column
  | [], acc => acc
  | r :: rs, acc =>
    let tasks := acc.1.set r.ID (taskOfJoinRow r)
    match acc.2.get? r.State with
    | some col =>
      scanTasks rs (tasks, acc.2.set r.State { col with TaskIDs := col.TaskIDs ++ [r.ID] })
    | none => scanTasks rs (tasks, acc.2)

/-- Third loop of `getBoardHandler` (source lines 388-416): every task of the map
receives the comments the comment query returns for its id. -/
def attachComments (commentRows : String → List Comment) (tasks : GoMap Task) : GoMap Task :=
  ⟨tasks.entries.map (fun e => (e.1, { e.2 with Comments := commentRows e.1 }))⟩

/-- The board `getBoardHandler` assembles from the rows its queries return, each
list in the order the query returns it. -/
def getBoard (columnRows : List ColumnRow) (taskRows : List TaskJoinRow)
    (commentRows : String → List Comment) : Board :=
  let cols := scanColumns columnRows (GoMap.empty, [])
  let scanned := scanTasks taskRows (GoMap.empty, cols.1)
  ⟨attachComments commentRows scanned.1, scanned.2, cols.2⟩

/-- Handler `getBoardHandler`. -/
def getBoardHandler (columnRows : List ColumnRow) (taskRows : List TaskJoinRow)
    (commentRows : String → List Comment) : Response :=
  ⟨200, Body.board (getBoard columnRows taskRows commentRows)⟩

/-! ## Authorization guard -/

/-- Go `strings.Split` for a one-character separator, on the characters of the
string: the pieces between the separators (one more piece than separators). -/
def splitChars (sep : Char) : List Char → List (List Char)
  | [] => [[]]
  | c :: cs =>
    if c = sep then [] :: splitChars sep cs
    else
      match splitChars sep cs with
      | [] => [[c]]
      | p :: ps => (c :: p) :: ps

/-- Go `strings.Split(s, " ")`. -/
def stringsSplit (s : String) : List String :=
  (splitChars ' ' s.data).map String.mk

/-- Middleware `authMiddleware`.  The token check `jwt.ParseWithClaims` of the
JWT library is the parameter `verify` (`none` when the library reports an error
or an invalid token); `next` is the wrapped handler, which receives the user id
and the role through the request context. -/
def authMiddleware (verify : String → Option Claims)
    (next : String → String → Store → Response × Store)
    (authHeader : String) (s : Store) : Response × Store :=
  if authHeader = "" then (⟨401, Body.error "Authorization header required"⟩, s)
  else
    match stringsSplit authHeader with
    | [scheme, tokenString] =>
      if scheme ≠ "Bearer" then (⟨401, Body.error "Invalid authorization format"⟩, s)
      else
        match verify tokenString with
        | none => (⟨401, Body.error "Invalid or expired token"⟩, s)
        | some claims => next claims.UserID claims.Role s
    | _ => (⟨401, Body.error "Invalid authorization format"⟩, s)

/-! ## Example data -/

/-- A store with two users and one task assigned to the second user. -/
def exStore : Store :=
  { users := [⟨"u1", "root", "root@x.io", "pw", "admin", 0⟩,
      ⟨"u2", "alice", "alice@x.io", "pw", "user", 1⟩]
    tasks := [⟨"t1", "Write report", "", "todo", 1, some "u2", "u1", 2, 2⟩]
    comments := []
    notifications := []
    nextId := 10 }

/-- The example store before its task was assigned: the assignee is NULL. -/
def exStoreNull : Store :=
  { exStore with
    tasks := [⟨"t1", "Write report", "", "todo", 1, none, "u1", 2, 2⟩] }

/-- The example store after the admin created a task without assignee (its id
is `10`). -/
def createdUnassigned : Store :=
  (createTaskHandler exStore "admin" "u1" (some ⟨"", "Fix", "", "todo", 1, "", [], 0, 0⟩) 5).2

/-- The example store after the admin cleared the assignee of task `t1` with the
body `{"assignee": ""}`. -/
def clearedAssignee : Store :=
  (updateTaskHandler exStore "admin" "t1" (some ⟨[("assignee", JVal.str "")]⟩) 5).2

/-- Column rows of a small board. -/
def exColumns : List ColumnRow :=
  [⟨"todo", "To do", 0⟩, ⟨"done", "Done", 1⟩]

/-- Task rows of a small board, newest first; the state of `t2` is no column. -/
def exTaskRows : List TaskJoinRow :=
  [⟨"t3", "C", "", "todo", 0, none, 3, 3⟩, ⟨"t2", "B", "", "gone", 0, some "alice", 2, 2⟩,
    ⟨"t1", "A", "", "todo", 0, none, 1, 1⟩]

/-- The example store with one unread notification for each user. -/
def exInbox : Store :=
  { exStore with
    notifications := [⟨"n1", "u1", "first", false, 3⟩, ⟨"n2", "u2", "second", false, 4⟩] }

/-- Three register requests; the second repeats the email of the first. -/
def exRegistrations : List (Option RegisterRequest × Nat) :=
  [(some ⟨"root", "root@x.io", "pw"⟩, 1), (some ⟨"twin", "root@x.io", "pw"⟩, 2),
    (some ⟨"alice", "alice@x.io", "pw"⟩, 3)]

/-- A token check that accepts the single token `tok-alice`. -/
def exVerify (token : String) : Option Claims :=
  if token = "tok-alice" then some ⟨"u2", "user"⟩ else none

/-- The body `{"title": 5}`: a recognised key with a number where a string is
expected. -/
def titleNumber : GoMap JVal :=
  ⟨[("title", JVal.num 5 0)]⟩

/-- The body `{"priority": "high"}`: a string where a number is expected. -/
def priorityString : GoMap JVal :=
  ⟨[("priority", JVal.str "high")]⟩

/-- The body `{"priority": 2.5}`; the `float64` 2.5 is `5 * 2 ^ (-1)`. -/
def priorityFraction : GoMap JVal :=
  ⟨[("priority", JVal.num 5 (-1))]⟩

/-- The body `{"priority": 9223372036854775808}`; the `float64` is `2 ^ 63`. -/
def priorityHuge : GoMap JVal :=
  ⟨[("priority", JVal.num 1 63)]⟩

/-- The body `{"title": "Report", "priority": 3, "color": "red"}`. -/
def titlePriorityColor : GoMap JVal :=
  ⟨[("title", JVal.str "Report"), ("priority", JVal.num 3 0), ("color", JVal.str "red")]⟩

/-- The example store with a comment by each user on task `t1`. -/
def exCommented : Store :=
  { exStore with
    comments := [⟨"c1", "t1", "first", "u1", 3⟩, ⟨"c2", "t1", "second", "u2", 4⟩] }

/-- The body `{"state": x}`. -/
def stateOnly (x : String) : GoMap JVal :=
  ⟨[("state", JVal.str x)]⟩

/-- The body `{"state": x, "title": y}`. -/
def stateAndTitle (x y : String) : GoMap JVal :=
  ⟨[("state", JVal.str x), ("title", JVal.str y)]⟩

/-- The body `{"state": x, "assignee": y}`. -/
def stateAndAssignee (x y : String) : GoMap JVal :=
  ⟨[("state", JVal.str x), ("assignee", JVal.str y)]⟩

/-- The body `{"assignee": y}`. -/
def assigneeOnly (y : String) : GoMap JVal :=
  ⟨[("assignee", JVal.str y)]⟩

/-- The body `{"title": y}`. -/
def titleOnly (y : String) : GoMap JVal :=
  ⟨[("title", JVal.str y)]⟩

/-- A decoded create request with the given title and assignee. -/
def newTask (title assignee : String) : Task :=
  ⟨"", title, "", "todo", 1, assignee, [], 0, 0⟩

/-! ## Theorems -/

theorem respondUpdated_status (s : Store) (taskID : String) :
    (respondUpdated s taskID).status = 500 ∨ (respondUpdated s taskID).status = 200 := by
  unfold respondUpdated
  split
  · exact Or.inl rfl
  · split
    · split <;> exact Or.inr rfl
    · exact Or.inr rfl

theorem updateTaskHandler_of_forbidden (s : Store) (role taskID : String)
    (updates : GoMap JVal) (now : Nat) (hf : updateForbidden role updates = true) :
    updateTaskHandler s role taskID (some updates) now =
      (⟨403, Body.error "Unauthorized: Regular users can only update task state"⟩, s) := by
  simp [updateTaskHandler, hf]

theorem updateTaskHandler_of_missing (s : Store) (role taskID : String)
    (updates : GoMap JVal) (now : Nat) (hf : updateForbidden role updates = false)
    (hm : findTask s taskID = none) :
    updateTaskHandler s role taskID (some updates) now =
      (⟨404, Body.error "Task not found"⟩, s) := by
  simp [updateTaskHandler, hf, hm]

theorem updateTaskHandler_of_found (s : Store) (role taskID : String)
    (updates : GoMap JVal) (now : Nat) (old : TaskRow)
    (hf : updateForbidden role updates = false) (hm : findTask s taskID = some old) :
    updateTaskHandler s role taskID (some updates) now =
      (respondUpdated (execUpdate (notifyAssigneeChange (notifyStateChange s old updates now)
          taskID old updates now) (buildQuery updates) taskID now) taskID,
        execUpdate (notifyAssigneeChange (notifyStateChange s old updates now)
          taskID old updates now) (buildQuery updates) taskID now) := by
  simp [updateTaskHandler, hf, hm]

theorem updateTaskHandler_forbidden_iff (s : Store) (role taskID : String)
    (updates : GoMap JVal) (now : Nat) :
    (updateTaskHandler s role taskID (some updates) now).1.status = 403 ↔
      updateForbidden role updates = true := by
  cases hf : updateForbidden role updates
  · simp only [Bool.false_eq_true, iff_false]
    cases hm : findTask s taskID with
    | none => rw [updateTaskHandler_of_missing s role taskID updates now hf hm]; simp
    | some old =>
      rw [updateTaskHandler_of_found s role taskID updates now old hf hm]
      rcases respondUpdated_status
        (execUpdate (notifyAssigneeChange (notifyStateChange s old updates now) taskID old
          updates now) (buildQuery updates) taskID now) taskID with h | h <;> simp [h]
  · rw [updateTaskHandler_of_forbidden s role taskID updates now hf]; simp

/-- C1: for a requester whose role is not admin, `updateTaskHandler` answers a
decoded partial update with 403 exactly when the map has no `state` key or has
more than one key; a body with only `state` is not answered with 403, a body with
`state` and `title` is. -/
theorem updateTask_nonadmin_forbidden (s : Store) (role taskID : String)
    (updates : GoMap JVal) (now : Nat) (hrole : role ≠ "admin") :
    ((updateTaskHandler s role taskID (some updates) now).1.status = 403 ↔
      (updates.contains "state" = false ∨ 1 < updates.len)) ∧
    (∀ x, (updateTaskHandler s role taskID (some (stateOnly x)) now).1.status ≠ 403) ∧
    (∀ x y, (updateTaskHandler s role taskID (some (stateAndTitle x y)) now).1.status = 403) := by
  refine ⟨?_, ?_, ?_⟩
  · rw [updateTaskHandler_forbidden_iff]
    simp [updateForbidden, hrole]
  · intro x
    rw [Ne, updateTaskHandler_forbidden_iff]
    simp [updateForbidden, stateOnly, GoMap.contains, GoMap.get?, GoMap.len, GoMap.keys]
  · intro x y
    rw [updateTaskHandler_forbidden_iff]
    have hk : (stateAndTitle x y).len = 2 := by
      simp [stateAndTitle, GoMap.len, GoMap.keys]
    simp [updateForbidden, hrole, hk]

/-- Witness of C1: the member `alice`, role `user`, on the example store. -/
theorem updateTask_nonadmin_forbidden_witness :
    "user" ≠ "admin" ∧
    (((updateTaskHandler exStore "user" "t1" (some (stateOnly "done")) 5).1.status = 403 ↔
      ((stateOnly "done").contains "state" = false ∨ 1 < (stateOnly "done").len)) ∧
    (∀ x, (updateTaskHandler exStore "user" "t1" (some (stateOnly x)) 5).1.status ≠ 403) ∧
    (∀ x y,
      (updateTaskHandler exStore "user" "t1" (some (stateAndTitle x y)) 5).1.status = 403)) :=
  ⟨by decide,
    updateTask_nonadmin_forbidden exStore "user" "t1" (stateOnly "done") 5 (by decide)⟩

/-- C2: for a role other than admin, `createTaskHandler` and `deleteTaskHandler`
answer 403 and leave the store as it was; for role admin neither answers 403. -/
theorem create_delete_forbidden (s : Store) (role userID taskID : String)
    (body : Option Task) (now : Nat) :
    (role ≠ "admin" →
      (createTaskHandler s role userID body now).1.status = 403 ∧
      (createTaskHandler s role userID body now).2 = s ∧
      (deleteTaskHandler s role taskID).1.status = 403 ∧
      (deleteTaskHandler s role taskID).2 = s) ∧
    (createTaskHandler s "admin" userID body now).1.status ≠ 403 ∧
    (deleteTaskHandler s "admin" taskID).1.status ≠ 403 := by
  refine ⟨fun hrole => ?_, ?_, ?_⟩
  · simp [createTaskHandler, deleteTaskHandler, hrole]
  · unfold createTaskHandler
    cases body with
    | none => simp
    | some task =>
      by_cases ha : task.Assignee = "" <;> simp [ha]
  · simp [deleteTaskHandler]

/-- Witness of C2: the member with role `user` on the example store. -/
theorem create_delete_forbidden_witness :
    "user" ≠ "admin" ∧
    (createTaskHandler exStore "user" "u2" none 5).1.status = 403 ∧
    (createTaskHandler exStore "user" "u2" none 5).2 = exStore ∧
    (deleteTaskHandler exStore "user" "t1").1.status = 403 ∧
    (deleteTaskHandler exStore "user" "t1").2 = exStore :=
  ⟨by decide, (create_delete_forbidden exStore "user" "u2" "t1" none 5).1 (by decide)⟩

/-- Notifications of `createTaskHandler` for an admin: none without assignee;
with an assignee exactly one, unread, announcing the title, whose `user_id` is
the username found for the assignee (the assignee itself when no user has that
id). -/
theorem createTaskHandler_emitted (s : Store) (userID : String) (task : Task) (now : Nat) :
    emitted s (createTaskHandler s "admin" userID (some task) now).2 =
      if task.Assignee = "" then []
      else [⟨toString (s.nextId + 1), (findUsername s task.Assignee).getD task.Assignee,
        "Вам назначена новая задача: " ++ task.Title, false, now⟩] := by
  by_cases ha : task.Assignee = ""
  · simp [createTaskHandler, ha, emitted]
  · cases hu : findUsername s task.Assignee with
    | none =>
      have hu2 : findUsername ⟨s.users, s.tasks ++ [⟨toString s.nextId, task.Title,
          task.Description, task.State, task.Priority, some task.Assignee, userID, now, now⟩],
          s.comments, s.notifications, s.nextId + 1⟩ task.Assignee = none := hu
      simp [createTaskHandler, ha, emitted, insertNotification, hu2]
    | some name =>
      have hu2 : findUsername ⟨s.users, s.tasks ++ [⟨toString s.nextId, task.Title,
          task.Description, task.State, task.Priority, some task.Assignee, userID, now, now⟩],
          s.comments, s.notifications, s.nextId + 1⟩ task.Assignee = some name := hu
      simp [createTaskHandler, ha, emitted, insertNotification, hu2]

/-- C3 (evaluation): the admin `u1` creates a task assigned to the user id `u2`,
whose username is `alice`.  One unread notification announcing the title is
inserted, and its `user_id` is the username `alice`, not the id `u2`: the handler
overwrites `task.Assignee` with the username before it inserts the notification. -/
theorem createTask_notification_target :
    findUsername exStore "u2" = some "alice" ∧
    emitted exStore (createTaskHandler exStore "admin" "u1" (some (newTask "Fix" "u2")) 5).2 =
      [⟨"11", "alice", "Вам назначена новая задача: Fix", false, 5⟩] ∧
    emitted exStore (createTaskHandler exStore "admin" "u1" (some (newTask "Fix" "")) 5).2 =
      [] := by
  decide

/-! ### Notifications emitted by `updateTaskHandler` -/

theorem emitted_self (s : Store) : emitted s s = [] := by
  simp [emitted]

theorem emitted_insert (s : Store) (u m : String) (now : Nat) :
    emitted s (insertNotification s u m now) = [⟨toString s.nextId, u, m, false, now⟩] := by
  simp [emitted, insertNotification]

theorem emitted_insert_insert (s : Store) (u m v k : String) (now : Nat) :
    emitted s (insertNotification (insertNotification s u m now) v k now) =
      [⟨toString s.nextId, u, m, false, now⟩, ⟨toString (s.nextId + 1), v, k, false, now⟩] := by
  simp [emitted, insertNotification]

theorem emitted_execUpdate (s t : Store) (q : UpdateQuery) (taskID : String) (now : Nat) :
    emitted s (execUpdate t q taskID now) = emitted s t := by
  simp [emitted, execUpdate]

theorem findTask_insertNotification (s : Store) (u m : String) (now : Nat) (taskID : String) :
    findTask (insertNotification s u m now) taskID = findTask s taskID := by
  simp [findTask, insertNotification]

theorem notifyStateChange_changed (s : Store) (old : TaskRow) (updates : GoMap JVal) (now : Nat)
    (X A : String) (hX : asString (updates.get? "state") = some X) (hne : X ≠ old.State)
    (hA : old.Assignee = some A) :
    notifyStateChange s old updates now =
      insertNotification s A ("Статус вашей задачи изменен на: " ++ X) now := by
  simp [notifyStateChange, hX, hne, hA]

theorem notifyStateChange_unchanged (s : Store) (old : TaskRow) (updates : GoMap JVal)
    (now : Nat)
    (h : asString (updates.get? "state") = none ∨
      asString (updates.get? "state") = some old.State ∨ old.Assignee = none) :
    notifyStateChange s old updates now = s := by
  unfold notifyStateChange
  rcases h with h | h | h
  · simp [h]
  · simp [h]
  · cases asString (updates.get? "state") <;> simp [h]

theorem notifyStateChange_cases (old : TaskRow) (updates : GoMap JVal) :
    (∃ X A, asString (updates.get? "state") = some X ∧ X ≠ old.State ∧ old.Assignee = some A) ∨
    (asString (updates.get? "state") = none ∨
      asString (updates.get? "state") = some old.State ∨ old.Assignee = none) := by
  cases hX : asString (updates.get? "state") with
  | none => exact Or.inr (Or.inl rfl)
  | some X =>
    cases hA : old.Assignee with
    | none => exact Or.inr (Or.inr (Or.inr rfl))
    | some A =>
      by_cases hne : X = old.State
      · exact Or.inr (Or.inr (Or.inl (by rw [hne])))
      · exact Or.inl ⟨X, A, rfl, hne, rfl⟩

theorem notifyAssigneeChange_changed (s : Store) (taskID : String) (old t : TaskRow)
    (updates : GoMap JVal) (now : Nat) (B : String)
    (hB : asString (updates.get? "assignee") = some B) (hne : B ≠ "")
    (hA : old.Assignee ≠ some B) (ht : findTask s taskID = some t) :
    notifyAssigneeChange s taskID old updates now =
      insertNotification s B ("Вам назначена задача: " ++ t.Title) now := by
  have hc : old.Assignee.isNone = true ∨ B ≠ old.Assignee.getD "" := by
    cases hA2 : old.Assignee with
    | none => exact Or.inl rfl
    | some A =>
      refine Or.inr (fun h => hA ?_)
      simp only [Option.getD_some] at h
      rw [hA2, h]
  simp only [notifyAssigneeChange, hB, ht]
  rw [if_pos ⟨hne, hc⟩]

theorem notifyAssigneeChange_unchanged (s : Store) (taskID : String) (old : TaskRow)
    (updates : GoMap JVal) (now : Nat) (B : String)
    (hB : asString (updates.get? "assignee") = some B)
    (h : B = "" ∨ old.Assignee = some B) :
    notifyAssigneeChange s taskID old updates now = s := by
  simp only [notifyAssigneeChange, hB]
  rcases h with h | h
  · simp [h]
  · simp [h]

theorem asString_str (v : Option JVal) (B : String) (h : v = some (JVal.str B)) :
    asString v = some B := by
  rw [h]; rfl

theorem updateTaskHandler_emitted (s : Store) (role taskID : String)
    (updates : GoMap JVal) (now : Nat) (old : TaskRow)
    (hf : updateForbidden role updates = false) (hm : findTask s taskID = some old) :
    emitted s (updateTaskHandler s role taskID (some updates) now).2 =
      emitted s (notifyAssigneeChange (notifyStateChange s old updates now)
        taskID old updates now) := by
  rw [updateTaskHandler_of_found s role taskID updates now old hf hm, emitted_execUpdate]

/-- C4 (counterexample): the admin sends `{"state": "done", "assignee": "u2"}` for
a task in state `todo` that is already assigned to `u2`.  The assignee does not
change, yet a notification addressed to `u2` is emitted: the one of the state
change. -/
theorem updateTask_same_assignee_notified :
    updateForbidden "admin" (stateAndAssignee "done" "u2") = false ∧
    (findTask exStore "t1").map TaskRow.Assignee = some (some "u2") ∧
    asString ((stateAndAssignee "done" "u2").get? "assignee") = some "u2" ∧
    (emitted exStore (updateTaskHandler exStore "admin" "t1"
        (some (stateAndAssignee "done" "u2")) 5).2).filter
      (fun n => decide (n.UserID = "u2")) =
      [⟨"10", "u2", "Статус вашей задачи изменен на: done", false, 5⟩] := by
  decide

/-- C4 (amended): for an existing task with stored assignee `old.Assignee` and a
permitted update whose `assignee` is the string `B`:
* if `B` is non-empty and differs from the stored assignee, exactly one emitted
  notification is addressed to `B`; it is unread and announces the task title;
* if `B` is empty or equals the stored assignee, no assignment notification is
  emitted: the update emits what its `state` block emits and nothing else, so
  nothing at all when it carries no string `state` different from the stored one;
* an update with no key but `assignee`, set to empty, emits nothing. -/
theorem updateTask_assignee_notifications (s : Store) (role taskID : String)
    (updates : GoMap JVal) (now : Nat) (old : TaskRow) (B : String)
    (hperm : updateForbidden role updates = false)
    (hold : findTask s taskID = some old)
    (hB : updates.get? "assignee" = some (JVal.str B)) :
    (B ≠ "" → old.Assignee ≠ some B →
      ∃ n, (emitted s (updateTaskHandler s role taskID (some updates) now).2).filter
          (fun n => decide (n.UserID = B)) = [n] ∧
        n.Message = "Вам назначена задача: " ++ old.Title ∧ n.Read = false) ∧
    ((B = "" ∨ old.Assignee = some B) →
      emitted s (updateTaskHandler s role taskID (some updates) now).2 =
        emitted s (notifyStateChange s old updates now)) ∧
    ((B = "" ∨ old.Assignee = some B) →
      (asString (updates.get? "state") = none ∨
        asString (updates.get? "state") = some old.State) →
      emitted s (updateTaskHandler s role taskID (some updates) now).2 = []) ∧
    (B = "" → (∀ k, k ≠ "assignee" → updates.get? k = none) →
      emitted s (updateTaskHandler s role taskID (some updates) now).2 = []) := by
  have hB2 := asString_str _ B hB
  rw [updateTaskHandler_emitted s role taskID updates now old hperm hold]
  refine ⟨fun hne hA => ?_, fun h => ?_, fun h hst => ?_, fun hne honly => ?_⟩
  · rcases notifyStateChange_cases old updates with ⟨X, A, hX, hXne, hAs⟩ | hun
    · rw [notifyStateChange_changed s old updates now X A hX hXne hAs,
        notifyAssigneeChange_changed _ taskID old old updates now B hB2 hne hA
          (by rw [findTask_insertNotification]; exact hold),
        emitted_insert_insert]
      have hAB : A ≠ B := fun h => hA (by rw [hAs, h])
      exact ⟨⟨toString (s.nextId + 1), B, "Вам назначена задача: " ++ old.Title, false, now⟩,
        by simp [List.filter, hAB], rfl, rfl⟩
    · rw [notifyStateChange_unchanged s old updates now hun,
        notifyAssigneeChange_changed _ taskID old old updates now B hB2 hne hA hold,
        emitted_insert]
      exact ⟨⟨toString s.nextId, B, "Вам назначена задача: " ++ old.Title, false, now⟩,
        by simp [List.filter], rfl, rfl⟩
  · rw [notifyAssigneeChange_unchanged _ taskID old updates now B hB2 h]
  · rw [notifyAssigneeChange_unchanged _ taskID old updates now B hB2 h,
      notifyStateChange_unchanged s old updates now
        (hst.elim Or.inl (fun h2 => Or.inr (Or.inl h2))),
      emitted_self]
  · have hst : asString (updates.get? "state") = none := by
      rw [honly "state" (by decide)]; rfl
    rw [notifyAssigneeChange_unchanged _ taskID old updates now B hB2 (Or.inl hne),
      notifyStateChange_unchanged s old updates now (Or.inl hst), emitted_self]

/-- Witness of C4 (amended): the admin reassigns the example task to `u1`. -/
theorem updateTask_assignee_notifications_witness :
    updateForbidden "admin" (stateAndAssignee "done" "u1") = false ∧
    findTask exStore "t1" = some ⟨"t1", "Write report", "", "todo", 1, some "u2", "u1", 2, 2⟩ ∧
    (stateAndAssignee "done" "u1").get? "assignee" = some (JVal.str "u1") ∧
    ∃ n, (emitted exStore (updateTaskHandler exStore "admin" "t1"
          (some (stateAndAssignee "done" "u1")) 5).2).filter
          (fun n => decide (n.UserID = "u1")) = [n] ∧
        n.Message = "Вам назначена задача: " ++ "Write report" ∧ n.Read = false :=
  ⟨by decide, by decide, rfl,
    (updateTask_assignee_notifications exStore "admin" "t1" (stateAndAssignee "done" "u1") 5
      ⟨"t1", "Write report", "", "todo", 1, some "u2", "u1", 2, 2⟩ "u1"
      (by decide) (by decide) rfl).1 (by decide) (by decide)⟩

theorem notifyAssigneeChange_absent (s : Store) (taskID : String) (old : TaskRow)
    (updates : GoMap JVal) (now : Nat) (h : asString (updates.get? "assignee") = none) :
    notifyAssigneeChange s taskID old updates now = s := by
  simp [notifyAssigneeChange, h]

/-- State changes of an assigned task: for an existing task whose stored assignee
is `A` and a permitted update whose `state` is a string `X` different from the
stored state, exactly one emitted notification is addressed to `A` and announces
`X`, whatever else the update carries. -/
theorem updateTask_state_notification (s : Store) (role taskID : String)
    (updates : GoMap JVal) (now : Nat) (old : TaskRow) (X A : String)
    (hperm : updateForbidden role updates = false)
    (hold : findTask s taskID = some old)
    (hX : updates.get? "state" = some (JVal.str X)) (hne : X ≠ old.State)
    (hA : old.Assignee = some A) :
    (emitted s (updateTaskHandler s role taskID (some updates) now).2).filter
        (fun n => decide (n.UserID = A ∧
          n.Message = "Статус вашей задачи изменен на: " ++ X)) =
      [⟨toString s.nextId, A, "Статус вашей задачи изменен на: " ++ X, false, now⟩] := by
  rw [updateTaskHandler_emitted s role taskID updates now old hperm hold,
    notifyStateChange_changed s old updates now X A (asString_str _ X hX) hne hA]
  cases hB : asString (updates.get? "assignee") with
  | none =>
    rw [notifyAssigneeChange_absent _ taskID old updates now hB, emitted_insert]
    simp [List.filter]
  | some B =>
    by_cases hc : B = "" ∨ old.Assignee = some B
    · rw [notifyAssigneeChange_unchanged _ taskID old updates now B hB hc, emitted_insert]
      simp [List.filter]
    · have hc1 : B ≠ "" := fun h => hc (Or.inl h)
      have hc2 : old.Assignee ≠ some B := fun h => hc (Or.inr h)
      rw [notifyAssigneeChange_changed _ taskID old old updates now B hB hc1 hc2
          (by rw [findTask_insertNotification]; exact hold),
        emitted_insert_insert]
      have hBA : B ≠ A := fun h => hc2 (by rw [hA, h])
      simp [List.filter, hBA]

/-- C5 (evaluation): a task created without assignee, and a task whose assignee
was cleared with `{"assignee": ""}`, are stored with the empty string as
assignee, not NULL.  A state change on either then inserts a notification whose
`user_id` is the empty string. -/
theorem updateTask_unassigned_state_notified :
    (findTask createdUnassigned "10").map TaskRow.Assignee = some (some "") ∧
    emitted createdUnassigned
        (updateTaskHandler createdUnassigned "user" "10" (some (stateOnly "done")) 6).2 =
      [⟨"11", "", "Статус вашей задачи изменен на: done", false, 6⟩] ∧
    (findTask clearedAssignee "t1").map TaskRow.Assignee = some (some "") ∧
    emitted clearedAssignee
        (updateTaskHandler clearedAssignee "user" "t1" (some (stateOnly "done")) 6).2 =
      [⟨"10", "", "Статус вашей задачи изменен на: done", false, 6⟩] ∧
    emitted exStoreNull
        (updateTaskHandler exStoreNull "user" "t1" (some (stateOnly "done")) 6).2 = [] := by
  decide

/-- C6 (counterexample): a member sends `{"title": "x"}` for a task id that is not
in the store.  The answer is 403, not 404: the permission test comes before the
lookup of the task. -/
theorem updateTask_missing_forbidden :
    findTask exStore "nope" = none ∧
    updateTaskHandler exStore "user" "nope" (some (titleOnly "x")) 5 =
      (⟨403, Body.error "Unauthorized: Regular users can only update task state"⟩,
        exStore) := by
  decide

/-- C6 (amended): on a task id that is not in the store, `updateTaskHandler`
leaves the store unchanged and answers 404 for every partial update the
permission rule admits (role admin, or a map whose only key is `state`), and 403
for a partial update the permission rule refuses. -/
theorem updateTask_missing (s : Store) (role taskID : String) (updates : GoMap JVal)
    (now : Nat) (hmiss : findTask s taskID = none) :
    (updateTaskHandler s role taskID (some updates) now).2 = s ∧
    (updateForbidden role updates = false →
      (updateTaskHandler s role taskID (some updates) now).1.status = 404) ∧
    (updateForbidden role updates = true →
      (updateTaskHandler s role taskID (some updates) now).1.status = 403) ∧
    (updateForbidden role updates = false ↔
      (role = "admin" ∨ (updates.contains "state" = true ∧ updates.len ≤ 1))) := by
  refine ⟨?_, fun hf => ?_, fun hf => ?_, ?_⟩
  · cases hf : updateForbidden role updates
    · rw [updateTaskHandler_of_missing s role taskID updates now hf hmiss]
    · rw [updateTaskHandler_of_forbidden s role taskID updates now hf]
  · rw [updateTaskHandler_of_missing s role taskID updates now hf hmiss]
  · rw [updateTaskHandler_of_forbidden s role taskID updates now hf]
  · by_cases hr : role = "admin" <;> simp [updateForbidden, hr]

/-- Witness of C6 (amended): the member moves a task that does not exist. -/
theorem updateTask_missing_witness :
    findTask exStore "nope" = none ∧
    (updateTaskHandler exStore "user" "nope" (some (stateOnly "done")) 5).2 = exStore ∧
    (updateTaskHandler exStore "user" "nope" (some (stateOnly "done")) 5).1.status = 404 :=
  ⟨by decide,
    (updateTask_missing exStore "user" "nope" (stateOnly "done") 5 (by decide)).1,
    (updateTask_missing exStore "user" "nope" (stateOnly "done") 5 (by decide)).2.1
      (by decide)⟩

/-! ### Board assembly -/

theorem get?_set_self {β : Type} (m : GoMap β) (k : String) (v : β) :
    (m.set k v).get? k = some v := by
  cases m with
  | mk l =>
    simp only [GoMap.set, GoMap.get?]
    induction l with
    | nil => simp [setEntries]
    | cons e es ih =>
      unfold setEntries
      by_cases h : e.1 = k
      · simp [h]
      · simp only [h, if_false, List.find?_cons, decide_False]
        exact ih

theorem get?_set_ne {β : Type} (m : GoMap β) (k j : String) (v : β) (hne : j ≠ k) :
    (m.set k v).get? j = m.get? j := by
  cases m with
  | mk l =>
    simp only [GoMap.set, GoMap.get?]
    induction l with
    | nil => simp [setEntries, Ne.symm hne]
    | cons e es ih =>
      unfold setEntries
      by_cases h : e.1 = k
      · have hj : ¬ e.1 = j := fun h2 => hne (h2.symm.trans h)
        simp [h, hj, Ne.symm hne]
      · rw [if_neg h]
        by_cases hj : e.1 = j
        · simp only [List.find?_cons, hj, decide_True]
        · simp only [List.find?_cons, hj, decide_False]
          exact ih

theorem scanColumns_order (rows : List ColumnRow) (acc : GoMap Column × List String) :
    (scanColumns rows acc).2 = acc.2 ++ rows.map ColumnRow.ID := by
  induction rows generalizing acc with
  | nil => simp [scanColumns]
  | cons r rs ih => simp [scanColumns, ih]

theorem scanColumns_get?_of_not_mem (rows : List ColumnRow) (acc : GoMap Column × List String)
    (k : String) (hk : k ∉ rows.map ColumnRow.ID) :
    (scanColumns rows acc).1.get? k = acc.1.get? k := by
  induction rows generalizing acc with
  | nil => simp [scanColumns]
  | cons r rs ih =>
    rw [List.map_cons, List.mem_cons, not_or] at hk
    rw [scanColumns, ih _ hk.2]
    exact get?_set_ne _ _ _ _ hk.1

theorem scanColumns_get?_of_mem (rows : List ColumnRow) (acc : GoMap Column × List String)
    (hnd : (rows.map ColumnRow.ID).Nodup) (c : ColumnRow) (hc : c ∈ rows) :
    (scanColumns rows acc).1.get? c.ID = some ⟨c.ID, c.Title, []⟩ := by
  induction rows generalizing acc with
  | nil => cases hc
  | cons r rs ih =>
    rw [List.map_cons, List.nodup_cons] at hnd
    rw [scanColumns]
    rcases List.mem_cons.1 hc with h | h
    · subst h
      rw [scanColumns_get?_of_not_mem _ _ _ hnd.1]
      exact get?_set_self _ _ _
    · exact ih _ hnd.2 h

theorem scanTasks_columns (rows : List TaskJoinRow) (acc : GoMap Task × GoMap Column)
    (k : String) :
    (scanTasks rows acc).2.get? k =
      (acc.2.get? k).map (fun col =>
        { col with
          TaskIDs := col.TaskIDs ++
            (rows.filter (fun t => decide (t.State = k))).map TaskJoinRow.ID }) := by
  induction rows generalizing acc with
  | nil =>
    cases h : acc.2.get? k <;> simp [scanTasks, h]
  | cons r rs ih =>
    unfold scanTasks
    cases hcol : acc.2.get? r.State with
    | some col =>
      simp only [hcol]
      rw [ih]
      by_cases hk : r.State = k
      · subst hk
        simp [get?_set_self, hcol]
      · have hk2 : k ≠ r.State := fun h => hk h.symm
        simp [get?_set_ne _ _ _ _ hk2, hk]
    | none =>
      simp only [hcol]
      rw [ih]
      by_cases hk : r.State = k
      · subst hk
        simp [hcol]
      · simp [hk]

theorem count_filter_ids (rows : List TaskJoinRow) (p : TaskJoinRow → Bool)
    (hnd : (rows.map TaskJoinRow.ID).Nodup) (t : TaskJoinRow) (ht : t ∈ rows) :
    ((rows.filter p).map TaskJoinRow.ID).count t.ID = if p t = true then 1 else 0 := by
  induction rows with
  | nil => cases ht
  | cons r rs ih =>
    rw [List.map_cons, List.nodup_cons] at hnd
    have hnot : ∀ q : TaskJoinRow → Bool, ((rs.filter q).map TaskJoinRow.ID).count r.ID = 0 := by
      intro q
      refine List.count_eq_zero.2 (fun hmem => hnd.1 ?_)
      rcases List.mem_map.1 hmem with ⟨x, hx, hxe⟩
      exact List.mem_map.2 ⟨x, (List.mem_filter.1 hx).1, hxe⟩
    rcases List.mem_cons.1 ht with h | h
    · subst h
      by_cases hp : p t = true
      · simp [List.filter_cons, hp, hnot]
      · simp [List.filter_cons, hp, hnot]
    · have hne : r.ID ≠ t.ID := fun he => hnd.1 (he ▸ List.mem_map.2 ⟨t, h, rfl⟩)
      by_cases hp : p r = true
      · simp [List.filter_cons, hp, List.count_cons, hne, ih hnd.2 h]
      · simp [List.filter_cons, hp, ih hnd.2 h]

theorem filter_state_split (rows : List TaskJoinRow) (k : String) (ks : List String)
    (hk : k ∉ ks) :
    (rows.filter (fun t => decide (t.State ∈ k :: ks))).length =
      (rows.filter (fun t => decide (t.State = k))).length +
        (rows.filter (fun t => decide (t.State ∈ ks))).length := by
  induction rows with
  | nil => simp
  | cons r rs ih =>
    by_cases h1 : r.State = k
    · have h2 : r.State ∉ ks := fun h => hk (h1 ▸ h)
      simp [List.filter_cons, h1, h2] at ih ⊢
      have h3 : k ∉ ks := hk
      simp [h3]
      omega
    · by_cases h2 : r.State ∈ ks
      · simp [List.filter_cons, h1, h2] at ih ⊢
        omega
      · simp [List.filter_cons, h1, h2] at ih ⊢
        omega

theorem sum_filter_state (rows : List TaskJoinRow) (ks : List String) (hnd : ks.Nodup) :
    (ks.map (fun k => (rows.filter (fun t => decide (t.State = k))).length)).sum =
      (rows.filter (fun t => decide (t.State ∈ ks))).length := by
  induction ks with
  | nil => simp
  | cons k ks ih =>
    rw [List.nodup_cons] at hnd
    rw [List.map_cons, List.sum_cons, ih hnd.2, filter_state_split rows k ks hnd.1]

theorem getBoard_column (columnRows : List ColumnRow) (taskRows : List TaskJoinRow)
    (commentRows : String → List Comment) (hc : (columnRows.map ColumnRow.ID).Nodup)
    (c : ColumnRow) (hmem : c ∈ columnRows) :
    (getBoard columnRows taskRows commentRows).Columns.get? c.ID =
      some ⟨c.ID, c.Title,
        (taskRows.filter (fun t => decide (t.State = c.ID))).map TaskJoinRow.ID⟩ := by
  simp only [getBoard]
  rw [scanTasks_columns, scanColumns_get?_of_mem _ _ hc c hmem]
  simp

/-- C7: for column rows with distinct ids and task rows with distinct ids, in scan
order, the board of `getBoardHandler` lists the columns in row order, and gives
each column the ids of exactly the tasks whose state is the id of the column, in
scan order.  So the id of a task occurs once in the column of its state and in no
other column (in none when its state is no column), and the lengths of the lists
add up to the number of tasks whose state is a column. -/
theorem getBoard_partition (columnRows : List ColumnRow) (taskRows : List TaskJoinRow)
    (commentRows : String → List Comment) (hc : (columnRows.map ColumnRow.ID).Nodup)
    (ht : (taskRows.map TaskJoinRow.ID).Nodup) :
    (getBoard columnRows taskRows commentRows).ColumnOrder = columnRows.map ColumnRow.ID ∧
    (∀ c ∈ columnRows,
      (getBoard columnRows taskRows commentRows).Columns.get? c.ID =
        some ⟨c.ID, c.Title,
          (taskRows.filter (fun t => decide (t.State = c.ID))).map TaskJoinRow.ID⟩) ∧
    (∀ k, k ∉ columnRows.map ColumnRow.ID →
      (getBoard columnRows taskRows commentRows).Columns.get? k = none) ∧
    (∀ t ∈ taskRows, ∀ c ∈ columnRows,
      ∃ col, (getBoard columnRows taskRows commentRows).Columns.get? c.ID = some col ∧
        col.TaskIDs.count t.ID = if t.State = c.ID then 1 else 0) ∧
    (((getBoard columnRows taskRows commentRows).ColumnOrder.map (fun k =>
        match (getBoard columnRows taskRows commentRows).Columns.get? k with
        | some col => col.TaskIDs.length
        | none => 0)).sum =
      (taskRows.filter (fun t => decide (t.State ∈ columnRows.map ColumnRow.ID))).length) := by
  have horder : (getBoard columnRows taskRows commentRows).ColumnOrder =
      columnRows.map ColumnRow.ID := by
    simp [getBoard, scanColumns_order]
  refine ⟨horder, fun c hmem => getBoard_column _ _ _ hc c hmem, fun k hk => ?_,
    fun t htm c hmem => ?_, ?_⟩
  · simp only [getBoard]
    rw [scanTasks_columns, scanColumns_get?_of_not_mem _ _ _ hk]
    rfl
  · refine ⟨_, getBoard_column _ _ _ hc c hmem, ?_⟩
    simp only
    rw [count_filter_ids taskRows _ ht t htm]
    simp
  · rw [horder, List.map_map, ← sum_filter_state taskRows _ hc, List.map_map]
    congr 1
    refine List.map_congr_left (fun c hmem => ?_)
    simp [Function.comp, getBoard_column _ _ _ hc c hmem]

/-- Witness of C7: the small board. -/
theorem getBoard_partition_witness :
    (exColumns.map ColumnRow.ID).Nodup ∧ (exTaskRows.map TaskJoinRow.ID).Nodup ∧
    (getBoard exColumns exTaskRows (fun _ => [])).ColumnOrder = ["todo", "done"] ∧
    (getBoard exColumns exTaskRows (fun _ => [])).Columns.get? "todo" =
      some ⟨"todo", "To do", ["t3", "t1"]⟩ :=
  ⟨by decide, by decide,
    (getBoard_partition exColumns exTaskRows (fun _ => []) (by decide) (by decide)).1,
    (getBoard_partition exColumns exTaskRows (fun _ => []) (by decide) (by decide)).2.1
      ⟨"todo", "To do", 0⟩ (by decide)⟩

/-! ### Notification inbox -/

theorem markRead_map_eq_self (l : List Notification) (userID notificationID : String)
    (h : ∀ n ∈ l, ¬ (n.ID = notificationID ∧ n.UserID = userID)) :
    l.map (fun n => if n.ID = notificationID ∧ n.UserID = userID then
      ({ n with Read := true } : Notification) else n) = l := by
  induction l with
  | nil => rfl
  | cons a as ih =>
    rw [List.map_cons, if_neg (h a (List.mem_cons_self a as)),
      ih (fun n hn => h n (List.mem_cons_of_mem a hn))]

theorem markRead_forall₂ (l : List Notification) (userID notificationID : String) :
    List.Forall₂
      (fun (before after : Notification) =>
        after.ID = before.ID ∧ after.UserID = before.UserID ∧
        after.Message = before.Message ∧ after.CreatedAt = before.CreatedAt ∧
        after.Read =
          (before.Read || decide (before.ID = notificationID ∧ before.UserID = userID)))
      l
      (l.map (fun n => if n.ID = notificationID ∧ n.UserID = userID then
        ({ n with Read := true } : Notification) else n)) := by
  induction l with
  | nil => exact List.Forall₂.nil
  | cons a as ih =>
    rw [List.map_cons]
    refine List.Forall₂.cons ?_ ih
    by_cases h : a.ID = notificationID ∧ a.UserID = userID
    · rw [if_pos h]; simp [h]
    · rw [if_neg h]; simp [h]

/-- C8: `markNotificationReadHandler` answers 404 exactly when the store has no
notification with the given id that belongs to the user, and 200 otherwise.  With
404 the store is unchanged.  In every case the other tables are unchanged and the
notifications keep their place, id, owner, message and time; the read flag of a
notification becomes true when it has the given id and belongs to the user, and
keeps its value otherwise (so a notification of another user keeps its flag). -/
theorem markRead_spec (s : Store) (userID notificationID : String) :
    ((markNotificationReadHandler s userID notificationID).1.status = 404 ↔
      ¬ ∃ n ∈ s.notifications, n.ID = notificationID ∧ n.UserID = userID) ∧
    ((markNotificationReadHandler s userID notificationID).1.status = 404 ∨
      (markNotificationReadHandler s userID notificationID).1.status = 200) ∧
    ((markNotificationReadHandler s userID notificationID).1.status = 404 →
      (markNotificationReadHandler s userID notificationID).2 = s) ∧
    (markNotificationReadHandler s userID notificationID).2.users = s.users ∧
    (markNotificationReadHandler s userID notificationID).2.tasks = s.tasks ∧
    (markNotificationReadHandler s userID notificationID).2.comments = s.comments ∧
    (markNotificationReadHandler s userID notificationID).2.nextId = s.nextId ∧
    List.Forall₂
      (fun (before after : Notification) =>
        after.ID = before.ID ∧ after.UserID = before.UserID ∧
        after.Message = before.Message ∧ after.CreatedAt = before.CreatedAt ∧
        after.Read =
          (before.Read || decide (before.ID = notificationID ∧ before.UserID = userID)))
      s.notifications (markNotificationReadHandler s userID notificationID).2.notifications := by
  by_cases h0 : (s.notifications.filter
      (fun n => decide (n.ID = notificationID ∧ n.UserID = userID))).length = 0
  · have hnone : ∀ n ∈ s.notifications, ¬ (n.ID = notificationID ∧ n.UserID = userID) := by
      intro n hn hc
      have hmem : n ∈ s.notifications.filter
          (fun n => decide (n.ID = notificationID ∧ n.UserID = userID)) :=
        List.mem_filter.2 ⟨hn, by simpa using hc⟩
      rw [List.length_eq_zero.1 h0] at hmem
      cases hmem
    have hs : (markNotificationReadHandler s userID notificationID) =
        (⟨404, Body.error "Notification not found or not owned by user"⟩, s) := by
      simp only [markNotificationReadHandler, h0, if_true,
        markRead_map_eq_self _ _ _ hnone]
    rw [hs]
    refine ⟨⟨fun _ => ?_, fun _ => rfl⟩, Or.inl rfl, fun _ => rfl, rfl, rfl, rfl, rfl, ?_⟩
    · rintro ⟨n, hn, hc⟩
      exact hnone n hn hc
    · have := markRead_forall₂ s.notifications userID notificationID
      rw [markRead_map_eq_self _ _ _ hnone] at this
      exact this
  · have hsome : ∃ n ∈ s.notifications, n.ID = notificationID ∧ n.UserID = userID := by
      rcases List.exists_mem_of_length_pos (Nat.pos_of_ne_zero h0) with ⟨n, hn⟩
      rcases List.mem_filter.1 hn with ⟨h1, h2⟩
      exact ⟨n, h1, by simpa using h2⟩
    have hs : (markNotificationReadHandler s userID notificationID) =
        (⟨200, Body.message "Notification marked as read"⟩,
          { s with
            notifications := s.notifications.map
              (fun n => if n.ID = notificationID ∧ n.UserID = userID then
                { n with Read := true } else n) }) := by
      simp only [markNotificationReadHandler, h0, if_false]
    rw [hs]
    refine ⟨⟨fun h => ?_, fun h => absurd hsome h⟩, Or.inr rfl, fun h => ?_, rfl, rfl, rfl,
      rfl, markRead_forall₂ _ _ _⟩
    · exact absurd h (show (200 : Nat) ≠ 404 by decide)
    · exact absurd h (show (200 : Nat) ≠ 404 by decide)

/-- Witness of C8: `u1` cannot acknowledge the notification `n2` of `u2`. -/
theorem markRead_spec_witness :
    (markNotificationReadHandler exInbox "u1" "n2").1.status = 404 ∧
    (markNotificationReadHandler exInbox "u1" "n2").2 = exInbox :=
  ⟨(markRead_spec exInbox "u1" "n2").1.2 (by decide),
    (markRead_spec exInbox "u1" "n2").2.2.1
      ((markRead_spec exInbox "u1" "n2").1.2 (by decide))⟩

/-! ### Registration -/

theorem registerHandler_cases (s : Store) (body : Option RegisterRequest) (now : Nat) :
    ((registerHandler s body now).1.status ≠ 201 ∧ (registerHandler s body now).2 = s) ∨
    ((registerHandler s body now).1.status = 201 ∧
      ∃ u, (registerHandler s body now).2.users = s.users ++ [u] ∧
        u.Role = (if s.users.length = 0 then "admin" else "user") ∧
        ∃ req, body = some req ∧ u.Email = req.Email ∧ u.Username = req.Username ∧
          ∀ v ∈ s.users, v.Email ≠ req.Email) := by
  cases body with
  | none => exact Or.inl ⟨by simp [registerHandler], by simp [registerHandler]⟩
  | some req =>
    by_cases h : (s.users.filter (fun u => decide (u.Email = req.Email))).length > 0
    · exact Or.inl ⟨by simp [registerHandler, h], by simp [registerHandler, h]⟩
    · refine Or.inr ⟨by simp [registerHandler, h], ?_⟩
      refine ⟨⟨toString s.nextId, req.Username, req.Email, req.Password,
        if s.users.length = 0 then "admin" else "user", now⟩, by simp [registerHandler, h],
        rfl, req, rfl, rfl, rfl, fun v hv he => h ?_⟩
      exact List.length_pos_of_mem (List.mem_filter.2 ⟨hv, by simpa using he⟩)

theorem registerHandler_email_in_use (s : Store) (req : RegisterRequest) (now : Nat)
    (h : ∃ u ∈ s.users, u.Email = req.Email) :
    registerHandler s (some req) now = (⟨400, Body.error "Email already in use"⟩, s) := by
  rcases h with ⟨u, hu, he⟩
  have hpos : (s.users.filter (fun u => decide (u.Email = req.Email))).length > 0 :=
    List.length_pos_of_mem (List.mem_filter.2 ⟨hu, by simpa using he⟩)
  simp [registerHandler, hpos]

theorem registerAll_roles (s : Store) (reqs : List (Option RegisterRequest × Nat)) :
    (registerAll s reqs).2.users.length = s.users.length + created (registerAll s reqs).1 ∧
    (s.users.map User.Role =
        (List.range s.users.length).map (fun i => if i = 0 then "admin" else "user") →
      (registerAll s reqs).2.users.map User.Role =
        (List.range (registerAll s reqs).2.users.length).map
          (fun i => if i = 0 then "admin" else "user")) := by
  induction reqs generalizing s with
  | nil => simp [registerAll, created]
  | cons r rs ih =>
    simp only [registerAll]
    rcases registerHandler_cases s r.1 r.2 with ⟨hst, hs⟩ | ⟨hst, u, hu, hrole, _⟩
    · rw [hs]
      refine ⟨?_, (ih s).2⟩
      rw [(ih s).1]
      simp [created, List.filter_cons, hst]
    · have hlen : (registerHandler s r.1 r.2).2.users.length = s.users.length + 1 := by
        rw [hu]; simp
      refine ⟨?_, fun hinv => (ih _).2 ?_⟩
      · rw [(ih _).1, hlen]
        simp only [created, List.filter_cons, hst, decide_True, if_true, List.length_cons]
        omega
      · rw [hlen, hu, List.map_append, hinv, List.range_succ, List.map_append]
        simp [hrole]

/-- C9: register requests are applied one after another to a store without
users.  After any such sequence `reqs` the accounts, in the order they were
created, are as many as the requests answered with 201, the first with role
`admin` and every later one with role `user`.  A further request `r` answered
with 201 adds exactly one account, with role `admin` when no earlier request was
answered with 201 and role `user` otherwise; a request not answered with 201
changes nothing, and a request whose email is in use is answered with 400. -/
theorem register_roles (tasks : List TaskRow) (comments : List CommentRow)
    (notifications : List Notification) (nextId : Nat)
    (reqs : List (Option RegisterRequest × Nat)) (r : Option RegisterRequest × Nat) :
    (registerAll (noUsers tasks comments notifications nextId) reqs).2.users.map User.Role =
      (List.range (created (registerAll (noUsers tasks comments notifications nextId) reqs).1)).map
        (fun i => if i = 0 then "admin" else "user") ∧
    ((registerHandler (registerAll (noUsers tasks comments notifications nextId) reqs).2
        r.1 r.2).1.status = 201 →
      ∃ u, (registerHandler (registerAll (noUsers tasks comments notifications nextId) reqs).2
          r.1 r.2).2.users =
          (registerAll (noUsers tasks comments notifications nextId) reqs).2.users ++ [u] ∧
        u.Role =
          (if created (registerAll (noUsers tasks comments notifications nextId) reqs).1 = 0
            then "admin" else "user")) ∧
    ((registerHandler (registerAll (noUsers tasks comments notifications nextId) reqs).2
        r.1 r.2).1.status ≠ 201 →
      (registerHandler (registerAll (noUsers tasks comments notifications nextId) reqs).2
        r.1 r.2).2 = (registerAll (noUsers tasks comments notifications nextId) reqs).2) ∧
    (∀ req, r.1 = some req →
      (∃ u ∈ (registerAll (noUsers tasks comments notifications nextId) reqs).2.users,
        u.Email = req.Email) →
      registerHandler (registerAll (noUsers tasks comments notifications nextId) reqs).2
          r.1 r.2 =
        (⟨400, Body.error "Email already in use"⟩,
          (registerAll (noUsers tasks comments notifications nextId) reqs).2)) := by
  have hall := registerAll_roles (noUsers tasks comments notifications nextId) reqs
  have hlen : (registerAll (noUsers tasks comments notifications nextId) reqs).2.users.length =
      created (registerAll (noUsers tasks comments notifications nextId) reqs).1 := by
    rw [hall.1]; simp [noUsers]
  refine ⟨?_, fun h201 => ?_, fun hne => ?_, fun req hreq hex => ?_⟩
  · rw [← hlen]
    exact hall.2 (by simp [noUsers])
  · rcases registerHandler_cases
      (registerAll (noUsers tasks comments notifications nextId) reqs).2 r.1 r.2 with
      ⟨hst, _⟩ | ⟨_, u, hu, hrole, _⟩
    · exact absurd h201 hst
    · exact ⟨u, hu, by rw [hrole, hlen]⟩
  · rcases registerHandler_cases
      (registerAll (noUsers tasks comments notifications nextId) reqs).2 r.1 r.2 with
      ⟨_, hs⟩ | ⟨hst, _⟩
    · exact hs
    · exact absurd hst hne
  · rw [hreq]
    exact registerHandler_email_in_use _ req r.2 hex

/-- Witness of C9: three requests, the second with the email of the first; two
accounts result, `admin` then `user`, and a fourth request with the email of the
first is refused. -/
theorem register_roles_witness :
    (registerAll (noUsers [] [] [] 1) exRegistrations).1.map Response.status =
      [201, 400, 201] ∧
    (registerAll (noUsers [] [] [] 1) exRegistrations).2.users.map User.Role =
      ["admin", "user"] ∧
    registerHandler (registerAll (noUsers [] [] [] 1) exRegistrations).2
        (some ⟨"again", "root@x.io", "pw"⟩) 4 =
      (⟨400, Body.error "Email already in use"⟩,
        (registerAll (noUsers [] [] [] 1) exRegistrations).2) :=
  ⟨by decide,
    (register_roles [] [] [] 1 exRegistrations (some ⟨"again", "root@x.io", "pw"⟩, 4)).1,
    (register_roles [] [] [] 1 exRegistrations (some ⟨"again", "root@x.io", "pw"⟩, 4)).2.2.2
      ⟨"again", "root@x.io", "pw"⟩ rfl (by decide)⟩

/-! ### Authorization guard -/

theorem splitChars_ne_nil (sep : Char) (l : List Char) : splitChars sep l ≠ [] := by
  cases l with
  | nil => simp [splitChars]
  | cons c cs =>
    unfold splitChars
    split
    · simp
    · split <;> simp

theorem splitChars_cons_ne (sep c : Char) (cs : List Char) (h : c ≠ sep) :
    ∃ p ps, splitChars sep cs = p :: ps ∧ splitChars sep (c :: cs) = (c :: p) :: ps := by
  cases hs : splitChars sep cs with
  | nil => exact absurd hs (splitChars_ne_nil sep cs)
  | cons p ps => exact ⟨p, ps, rfl, by simp [splitChars, h, hs]⟩

theorem splitChars_eq_singleton (sep : Char) (l p : List Char) :
    splitChars sep l = [p] ↔ l = p ∧ sep ∉ p := by
  induction l generalizing p with
  | nil =>
    constructor
    · intro h
      simp only [splitChars, List.cons.injEq, and_true] at h
      subst h
      simp
    · rintro ⟨h, _⟩
      subst h
      simp [splitChars]
  | cons c cs ih =>
    by_cases hc : c = sep
    · subst hc
      constructor
      · intro h
        simp only [splitChars, if_true, List.cons.injEq] at h
        exact absurd h.2 (splitChars_ne_nil c cs)
      · rintro ⟨h, hn⟩
        subst h
        exact absurd (List.mem_cons_self c cs) hn
    · rcases splitChars_cons_ne sep c cs hc with ⟨q, qs, hq, hcq⟩
      rw [hcq]
      constructor
      · intro h
        simp only [List.cons.injEq] at h
        rcases h with ⟨hp, hqs⟩
        subst hp
        subst hqs
        have := (ih q).1 hq
        refine ⟨by rw [this.1], fun hm => ?_⟩
        rcases List.mem_cons.1 hm with h1 | h1
        · exact hc h1.symm
        · exact this.2 h1
      · rintro ⟨h, hn⟩
        subst h
        have hn2 : sep ∉ cs := fun hm => hn (List.mem_cons_of_mem c hm)
        have := (ih cs).2 ⟨rfl, hn2⟩
        rw [hq] at this
        simp only [List.cons.injEq] at this
        rw [this.1, this.2]

theorem splitChars_eq_pair (sep : Char) (l p q : List Char) :
    splitChars sep l = [p, q] ↔ l = p ++ sep :: q ∧ sep ∉ p ∧ sep ∉ q := by
  induction l generalizing p with
  | nil =>
    constructor
    · intro h
      simp [splitChars] at h
    · rintro ⟨h, _⟩
      simp at h
  | cons c cs ih =>
    by_cases hc : c = sep
    · subst hc
      simp only [splitChars, if_true, List.cons.injEq]
      constructor
      · rintro ⟨hp, hq⟩
        subst hp
        have := (splitChars_eq_singleton c cs q).1 hq
        exact ⟨by rw [this.1]; rfl, by simp, this.2⟩
      · rintro ⟨h, hnp, hnq⟩
        cases p with
        | nil =>
          simp only [List.nil_append, List.cons.injEq, true_and] at h
          exact ⟨rfl, (splitChars_eq_singleton c cs q).2 ⟨h, hnq⟩⟩
        | cons a as =>
          simp only [List.cons_append, List.cons.injEq] at h
          exact absurd (h.1 ▸ List.mem_cons_self a as) hnp
    · rcases splitChars_cons_ne sep c cs hc with ⟨r, rs, hr, hcr⟩
      rw [hcr]
      constructor
      · intro h
        simp only [List.cons.injEq] at h
        rcases h with ⟨hp, hrs⟩
        subst hp
        subst hrs
        have := (ih r).1 hr
        refine ⟨by rw [this.1]; rfl, fun hm => ?_, this.2.2⟩
        rcases List.mem_cons.1 hm with h1 | h1
        · exact hc h1.symm
        · exact this.2.1 h1
      · rintro ⟨h, hnp, hnq⟩
        cases p with
        | nil =>
          simp only [List.nil_append, List.cons.injEq] at h
          exact absurd h.1 hc
        | cons a as =>
          simp only [List.cons_append, List.cons.injEq] at h
          rcases h with ⟨ha, hcs⟩
          subst ha
          have hnas : sep ∉ as := fun hm => hnp (List.mem_cons_of_mem c hm)
          have := (ih as).2 ⟨hcs, hnas, hnq⟩
          rw [hr] at this
          simp only [List.cons.injEq] at this
          rw [this.1, this.2]

theorem stringsSplit_bearer (h t : String) :
    stringsSplit h = ["Bearer", t] ↔ h = "Bearer " ++ t ∧ ' ' ∉ t.data := by
  have hmk : ∀ (l : List (List Char)), l.map String.mk = ["Bearer", t] ↔
      l = ["Bearer".data, t.data] := by
    intro l
    constructor
    · intro hl
      match l, hl with
      | [], hl => simp at hl
      | [_], hl => simp at hl
      | [a, b], hl =>
        simp only [List.map_cons, List.map_nil, List.cons.injEq, and_true] at hl
        rw [← hl.1, ← hl.2]
      | _ :: _ :: _ :: _, hl => simp at hl
    · intro hl
      subst hl
      rfl
  unfold stringsSplit
  rw [hmk, splitChars_eq_pair]
  constructor
  · rintro ⟨hd, _, hn⟩
    exact ⟨String.ext (by rw [hd, String.data_append]; rfl), hn⟩
  · rintro ⟨hd, hn⟩
    refine ⟨?_, by decide, hn⟩
    rw [hd, String.data_append]
    rfl

theorem authMiddleware_cases (verify : String → Option Claims) (h : String) :
    (∃ t c, stringsSplit h = ["Bearer", t] ∧ h ≠ "" ∧ verify t = some c ∧
      ∀ (next : String → String → Store → Response × Store) (s : Store),
        authMiddleware verify next h s = next c.UserID c.Role s) ∨
    ((h = "" ∨ (¬ ∃ t, stringsSplit h = ["Bearer", t]) ∨
        ∃ t, stringsSplit h = ["Bearer", t] ∧ verify t = none) ∧
      ∃ msg, ∀ (next : String → String → Store → Response × Store) (s : Store),
        authMiddleware verify next h s = (⟨401, Body.error msg⟩, s)) := by
  by_cases he : h = ""
  · exact Or.inr ⟨Or.inl he, "Authorization header required", fun next s => by
      simp [authMiddleware, he]⟩
  · have hbad : ∀ l : List String, stringsSplit h = l → (∀ t, l ≠ ["Bearer", t]) →
        (∀ (next : String → String → Store → Response × Store) (s : Store),
          authMiddleware verify next h s =
            (⟨401, Body.error "Invalid authorization format"⟩, s)) →
        (h = "" ∨ (¬ ∃ t, stringsSplit h = ["Bearer", t]) ∨
          ∃ t, stringsSplit h = ["Bearer", t] ∧ verify t = none) ∧
        ∃ msg, ∀ (next : String → String → Store → Response × Store) (s : Store),
          authMiddleware verify next h s = (⟨401, Body.error msg⟩, s) := by
      intro l hl hne hres
      refine ⟨Or.inr (Or.inl ?_), "Invalid authorization format", hres⟩
      rintro ⟨t, ht⟩
      exact hne t (hl.symm.trans ht)
    have key : ∀ l : List String, stringsSplit h = l →
        ((∃ t c, stringsSplit h = ["Bearer", t] ∧ h ≠ "" ∧ verify t = some c ∧
          ∀ (next : String → String → Store → Response × Store) (s : Store),
            authMiddleware verify next h s = next c.UserID c.Role s) ∨
        ((h = "" ∨ (¬ ∃ t, stringsSplit h = ["Bearer", t]) ∨
            ∃ t, stringsSplit h = ["Bearer", t] ∧ verify t = none) ∧
          ∃ msg, ∀ (next : String → String → Store → Response × Store) (s : Store),
            authMiddleware verify next h s = (⟨401, Body.error msg⟩, s))) := by
      intro l hs
      match l, hs with
      | [], hs => exact Or.inr (hbad [] hs (fun t => by simp) (fun next s => by
          simp [authMiddleware, he, hs]))
      | [a], hs => exact Or.inr (hbad [a] hs (fun t => by simp) (fun next s => by
          simp [authMiddleware, he, hs]))
      | a :: b :: c :: l, hs => exact Or.inr (hbad (a :: b :: c :: l) hs (fun t => by simp)
          (fun next s => by simp [authMiddleware, he, hs]))
      | [a, t], hs =>
        by_cases ha : a = "Bearer"
        · subst ha
          cases hv : verify t with
          | none =>
            exact Or.inr ⟨Or.inr (Or.inr ⟨t, hs, hv⟩), "Invalid or expired token",
              fun next s => by simp [authMiddleware, he, hs, hv]⟩
          | some c =>
            exact Or.inl ⟨t, c, hs, he, hv, fun next s => by
              simp [authMiddleware, he, hs, hv]⟩
        · exact Or.inr (hbad [a, t] hs (fun u => by simp [ha]) (fun next s => by
            simp [authMiddleware, he, hs, ha]))
    exact key _ rfl

theorem authMiddleware_accepts (verify : String → Option Claims) (t : String) (c : Claims)
    (hsp : ' ' ∉ t.data) (hv : verify t = some c)
    (next : String → String → Store → Response × Store) (s : Store) :
    authMiddleware verify next ("Bearer " ++ t) s = next c.UserID c.Role s := by
  have hs : stringsSplit ("Bearer " ++ t) = ["Bearer", t] :=
    (stringsSplit_bearer _ t).2 ⟨rfl, hsp⟩
  have hne : "Bearer " ++ t ≠ "" := by
    intro h
    have h2 := congrArg (fun x : String => x.data.head?) h
    simp [String.data_append] at h2
  simp [authMiddleware, hne, hs, hv]

/-- C10: for every `Authorization` header value `h`:
* when `h` is empty, or splitting `h` on a space does not give exactly two parts
  with first part `Bearer`, `authMiddleware` answers 401 whatever the wrapped
  handler is (it is not called) and leaves the store as it is;
* when `h` is `Bearer ` followed by a token without a space that the token check
  accepts with claims `c`, the answer is that of the wrapped handler called with
  `c.UserID` and `c.Role`;
* when `h` is `Bearer ` followed by a token that the token check refuses, the
  answer is 401 whatever the wrapped handler is;
* when `h` is not `Bearer ` followed by a token without a space that the token
  check accepts, the answer is 401 whatever the wrapped handler is: the wrapped
  handler is called only for such a header. -/
theorem authMiddleware_guard (verify : String → Option Claims) (h : String) :
    ((h = "" ∨ ¬ ∃ t, stringsSplit h = ["Bearer", t]) →
      ∃ msg, ∀ (next : String → String → Store → Response × Store) (s : Store),
        authMiddleware verify next h s = (⟨401, Body.error msg⟩, s)) ∧
    (∀ t c, h = "Bearer " ++ t → ' ' ∉ t.data → verify t = some c →
      ∀ (next : String → String → Store → Response × Store) (s : Store),
        authMiddleware verify next h s = next c.UserID c.Role s) ∧
    (∀ t, h = "Bearer " ++ t → verify t = none →
      ∃ msg, ∀ (next : String → String → Store → Response × Store) (s : Store),
        authMiddleware verify next h s = (⟨401, Body.error msg⟩, s)) ∧
    ((¬ ∃ t c, h = "Bearer " ++ t ∧ ' ' ∉ t.data ∧ verify t = some c) →
      ∃ msg, ∀ (next : String → String → Store → Response × Store) (s : Store),
        authMiddleware verify next h s = (⟨401, Body.error msg⟩, s)) ∧
    ((∃ t c, h = "Bearer " ++ t ∧ ' ' ∉ t.data ∧ verify t = some c ∧
        ∀ (next : String → String → Store → Response × Store) (s : Store),
          authMiddleware verify next h s = next c.UserID c.Role s) ∨
      (∃ msg, ∀ (next : String → String → Store → Response × Store) (s : Store),
        authMiddleware verify next h s = (⟨401, Body.error msg⟩, s))) := by
  have hacc : ∀ t c, h = "Bearer " ++ t → ' ' ∉ t.data → verify t = some c →
      ∀ (next : String → String → Store → Response × Store) (s : Store),
        authMiddleware verify next h s = next c.UserID c.Role s := by
    intro t c hh hsp hv next s
    rw [hh]
    exact authMiddleware_accepts verify t c hsp hv next s
  rcases authMiddleware_cases verify h with ⟨t, c, hs, he, hv, hnext⟩ | ⟨hwhy, hrej⟩
  · have hform := (stringsSplit_bearer h t).1 hs
    refine ⟨fun hbad => ?_, hacc, fun u hu hnone => ?_, fun hno => ?_,
      Or.inl ⟨t, c, hform.1, hform.2, hv, hnext⟩⟩
    · rcases hbad with h1 | h1
      · exact absurd h1 he
      · exact absurd ⟨t, hs⟩ h1
    · have htu : t = u := by
        have h1 : "Bearer " ++ t = "Bearer " ++ u := hform.1.symm.trans hu
        have h2 := congrArg String.data h1
        simp only [String.data_append, List.append_cancel_left_eq] at h2
        exact String.ext h2
      rw [htu, hnone] at hv
      cases hv
    · exact absurd ⟨t, c, hform.1, hform.2, hv⟩ hno
  · exact ⟨fun _ => hrej, hacc, fun _ _ _ => hrej, fun _ => hrej, Or.inr hrej⟩

/-- Witness of C10: with the token check that accepts `tok-alice` for the user
`u2` with role `user`, the header `Bearer tok-alice` reaches the wrapped handler
with `u2` and `user`, and a header with the wrong scheme is refused with 401
whatever the wrapped handler is. -/
theorem authMiddleware_guard_witness :
    (∀ (next : String → String → Store → Response × Store) (s : Store),
      authMiddleware exVerify next "Bearer tok-alice" s = next "u2" "user" s) ∧
    authMiddleware exVerify (fun _ role s => deleteTaskHandler s role "t1")
      "Bearer tok-alice" exStore = (⟨403, Body.error "Unauthorized"⟩, exStore) ∧
    ("Token tok-alice" = "" ∨ ¬ ∃ t, stringsSplit "Token tok-alice" = ["Bearer", t]) ∧
    ∃ msg, ∀ (next : String → String → Store → Response × Store) (s : Store),
      authMiddleware exVerify next "Token tok-alice" s = (⟨401, Body.error msg⟩, s) :=
  ⟨(authMiddleware_guard exVerify "Bearer tok-alice").2.1 "tok-alice" ⟨"u2", "user"⟩ rfl
      (by decide) (by decide),
    by decide,
    Or.inr (fun ⟨t, ht⟩ => absurd ((stringsSplit_bearer _ t).1 ht).1 (by
      intro h
      have h2 := congrArg (fun x : String => x.data.head?) h
      simp [String.data_append] at h2)),
    (authMiddleware_guard exVerify "Token tok-alice").1
      (Or.inr (fun ⟨t, ht⟩ => absurd ((stringsSplit_bearer _ t).1 ht).1 (by
        intro h
        have h2 := congrArg (fun x : String => x.data.head?) h
        simp [String.data_append] at h2)))⟩

/-! ### Fields stored by `updateTaskHandler` -/

theorem updateForbidden_admin (updates : GoMap JVal) : updateForbidden "admin" updates = false := by
  simp [updateForbidden]

theorem findTask_notifyStateChange (s : Store) (old : TaskRow) (updates : GoMap JVal)
    (now : Nat) (taskID : String) :
    findTask (notifyStateChange s old updates now) taskID = findTask s taskID := by
  unfold notifyStateChange
  split
  · split
    · exact findTask_insertNotification _ _ _ _ _
    · rfl
  · rfl

theorem findTask_notifyAssigneeChange (s : Store) (id : String) (old : TaskRow)
    (updates : GoMap JVal) (now : Nat) (taskID : String) :
    findTask (notifyAssigneeChange s id old updates now) taskID = findTask s taskID := by
  unfold notifyAssigneeChange
  split
  · split
    · split
      · exact findTask_insertNotification _ _ _ _ _
      · rfl
    · rfl
  · rfl

theorem find?_map_update (l : List TaskRow) (q : UpdateQuery) (now : Nat) (taskID : String) :
    (l.map (fun t => if t.ID = taskID then applyUpdate q now t else t)).find?
        (fun t => decide (t.ID = taskID)) =
      (l.find? (fun t => decide (t.ID = taskID))).map (applyUpdate q now) := by
  induction l with
  | nil => rfl
  | cons t ts ih =>
    by_cases h : t.ID = taskID
    · simp [List.find?_cons, h, applyUpdate]
    · rw [List.map_cons, if_neg h, List.find?_cons, List.find?_cons]
      simp only [h, decide_False]
      exact ih

theorem findTask_execUpdate (s : Store) (q : UpdateQuery) (taskID : String) (now : Nat) :
    findTask (execUpdate s q taskID now) taskID =
      (findTask s taskID).map (applyUpdate q now) := by
  simp only [findTask, execUpdate]
  exact find?_map_update s.tasks q now taskID

theorem updateTaskHandler_stored (s : Store) (role taskID : String) (updates : GoMap JVal)
    (now : Nat) (old : TaskRow) (hf : updateForbidden role updates = false)
    (hold : findTask s taskID = some old) :
    findTask (updateTaskHandler s role taskID (some updates) now).2 taskID =
      some (applyUpdate (buildQuery updates) now old) := by
  rw [updateTaskHandler_of_found s role taskID updates now old hf hold, findTask_execUpdate,
    findTask_notifyAssigneeChange, findTask_notifyStateChange, hold]
  rfl

theorem updateTaskHandler_congr (s : Store) (taskID : String) (updates other : GoMap JVal)
    (now : Nat)
    (h : ∀ k ∈ ["state", "title", "description", "priority", "assignee"],
      other.get? k = updates.get? k) :
    updateTaskHandler s "admin" taskID (some other) now =
      updateTaskHandler s "admin" taskID (some updates) now := by
  have h1 := h "state" (by simp)
  have h2 := h "title" (by simp)
  have h3 := h "description" (by simp)
  have h4 := h "priority" (by simp)
  have h5 := h "assignee" (by simp)
  simp only [updateTaskHandler, updateForbidden_admin, notifyStateChange, notifyAssigneeChange,
    buildQuery, h1, h2, h3, h4, h5]

/-- C11 (counterexample): the admin patches the example task (title
`Write report`, priority 1).  The body `{"title": 5}` has the key `title`, the
answer is 200 and the stored title is unchanged; the body `{"priority": "high"}`
leaves the stored priority 1; the body `{"priority": 2.5}` stores priority 2. -/
theorem updateTask_field_not_stored :
    titleNumber.contains "title" = true ∧
    (updateTaskHandler exStore "admin" "t1" (some titleNumber) 5).1.status = 200 ∧
    (findTask (updateTaskHandler exStore "admin" "t1" (some titleNumber) 5).2 "t1").map
      TaskRow.Title = some "Write report" ∧
    priorityString.contains "priority" = true ∧
    (findTask (updateTaskHandler exStore "admin" "t1" (some priorityString) 5).2 "t1").map
      TaskRow.Priority = some 1 ∧
    priorityFraction.contains "priority" = true ∧
    (findTask (updateTaskHandler exStore "admin" "t1" (some priorityFraction) 5).2 "t1").map
      TaskRow.Priority = some 2 := by
  decide

/-- C11 (amended): for an existing task and an admin partial update, the stored
task after `updateTaskHandler` has
* state, title, description and assignee equal to the string supplied when the
  key is present with a string, and equal to the value before otherwise (key
  absent, or present with a value that is no string);
* priority equal to the number supplied, cut toward zero to an integer, when the
  key is present with a number whose integer part is in the range of a 64-bit
  `int` (out of that range Go leaves the converted value to the implementation),
  and equal to the value before when the key is absent or its value is no number;
* id, creator and creation time as before.
A body that agrees with the update on these five keys gives the same answer and
the same store, notifications included. -/
theorem updateTask_fields (s : Store) (taskID : String) (updates : GoMap JVal) (now : Nat)
    (old : TaskRow) (hold : findTask s taskID = some old) :
    ∃ new, findTask (updateTaskHandler s "admin" taskID (some updates) now).2 taskID =
        some new ∧
      (∀ v, updates.get? "state" = some (JVal.str v) → new.State = v) ∧
      ((∀ v, updates.get? "state" ≠ some (JVal.str v)) → new.State = old.State) ∧
      (∀ v, updates.get? "title" = some (JVal.str v) → new.Title = v) ∧
      ((∀ v, updates.get? "title" ≠ some (JVal.str v)) → new.Title = old.Title) ∧
      (∀ v, updates.get? "description" = some (JVal.str v) → new.Description = v) ∧
      ((∀ v, updates.get? "description" ≠ some (JVal.str v)) →
        new.Description = old.Description) ∧
      (∀ v, updates.get? "assignee" = some (JVal.str v) → new.Assignee = some v) ∧
      ((∀ v, updates.get? "assignee" ≠ some (JVal.str v)) → new.Assignee = old.Assignee) ∧
      (∀ m e, updates.get? "priority" = some (JVal.num m e) → 0 ≤ e →
        -(2 ^ 63 : Int) ≤ m * 2 ^ e.toNat → m * 2 ^ e.toNat < 2 ^ 63 →
        new.Priority = m * 2 ^ e.toNat) ∧
      (∀ m e, updates.get? "priority" = some (JVal.num m e) → e < 0 →
        -(2 ^ 63 : Int) ≤ Int.tdiv m (2 ^ (-e).toNat) → Int.tdiv m (2 ^ (-e).toNat) < 2 ^ 63 →
        new.Priority = Int.tdiv m (2 ^ (-e).toNat)) ∧
      ((∀ m e, updates.get? "priority" ≠ some (JVal.num m e)) →
        new.Priority = old.Priority) ∧
      new.ID = old.ID ∧ new.CreatedBy = old.CreatedBy ∧ new.CreatedAt = old.CreatedAt ∧
      (∀ other : GoMap JVal,
        (∀ k ∈ ["state", "title", "description", "priority", "assignee"],
          other.get? k = updates.get? k) →
        updateTaskHandler s "admin" taskID (some other) now =
          updateTaskHandler s "admin" taskID (some updates) now) := by
  have hstr : ∀ (k : String), (∀ v, updates.get? k ≠ some (JVal.str v)) →
      asString (updates.get? k) = none := by
    intro k h
    cases hk : updates.get? k with
    | none => rfl
    | some j =>
      cases j with
      | str v => exact absurd hk (h v)
      | null => rfl
      | bool b => rfl
      | num m e => rfl
      | arr l => rfl
      | obj l => rfl
  have hnum : (∀ m e, updates.get? "priority" ≠ some (JVal.num m e)) →
      asInt (updates.get? "priority") = none := by
    intro h
    cases hk : updates.get? "priority" with
    | none => rfl
    | some j =>
      cases j with
      | num m e => exact absurd hk (h m e)
      | null => rfl
      | bool b => rfl
      | str v => rfl
      | arr l => rfl
      | obj l => rfl
  refine ⟨applyUpdate (buildQuery updates) now old,
    updateTaskHandler_stored s "admin" taskID updates now old (updateForbidden_admin updates)
      hold, ?_, ?_, ?_, ?_, ?_, ?_, ?_, ?_, ?_, ?_, ?_, rfl, rfl, rfl, ?_⟩
  · intro v h
    simp [applyUpdate, buildQuery, h, asString]
  · intro h
    simp [applyUpdate, buildQuery, hstr "state" h]
  · intro v h
    simp [applyUpdate, buildQuery, h, asString]
  · intro h
    simp [applyUpdate, buildQuery, hstr "title" h]
  · intro v h
    simp [applyUpdate, buildQuery, h, asString]
  · intro h
    simp [applyUpdate, buildQuery, hstr "description" h]
  · intro v h
    simp [applyUpdate, buildQuery, h, asString]
  · intro h
    simp [applyUpdate, buildQuery, hstr "assignee" h]
  · intro m e h he hlo hhi
    simp only [applyUpdate, buildQuery, h, asInt, truncFloat, toInt64, if_pos he,
      if_pos (And.intro hlo hhi), Option.getD_some]
  · intro m e h he hlo hhi
    have he2 : ¬ 0 ≤ e := not_le.2 he
    simp only [applyUpdate, buildQuery, h, asInt, truncFloat, toInt64, if_neg he2,
      if_pos (And.intro hlo hhi), Option.getD_some]
  · intro h
    simp [applyUpdate, buildQuery, hnum h]
  · intro other h
    exact updateTaskHandler_congr s taskID updates other now h

/-- Witness of C11 (amended): the admin sends
`{"title": "Report", "priority": 3, "color": "red"}` for the example task. -/
theorem updateTask_fields_witness :
    findTask exStore "t1" = some ⟨"t1", "Write report", "", "todo", 1, some "u2", "u1", 2, 2⟩ ∧
    ∃ new, findTask (updateTaskHandler exStore "admin" "t1" (some titlePriorityColor) 5).2
        "t1" = some new ∧
      new.Title = "Report" ∧ new.Priority = 3 ∧ new.State = "todo" ∧
      new.Assignee = some "u2" :=
  ⟨by decide,
    (updateTask_fields exStore "t1" titlePriorityColor 5
      ⟨"t1", "Write report", "", "todo", 1, some "u2", "u1", 2, 2⟩ (by decide)).elim
      (fun new h => ⟨new, h.1, h.2.2.2.1 "Report" rfl,
        (h.2.2.2.2.2.2.2.2.2.1 3 0 rfl (by decide) (by decide) (by decide)).trans
          (by decide),
        h.2.2.1 (fun v hv => by
          have h2 : (none : Option String) = some v := congrArg asString hv
          exact Option.noConfusion h2),
        h.2.2.2.2.2.2.2.2.1 (fun v hv => by
          have h2 : (none : Option String) = some v := congrArg asString hv
          exact Option.noConfusion h2)⟩)⟩

/-- Priority outside the range of `int`: the body
`{"priority": 9223372036854775808}` does not store the number supplied; with the
conversion of amd64 the stored priority is the least 64-bit integer. -/
theorem updateTask_priority_out_of_range :
    (findTask (updateTaskHandler exStore "admin" "t1" (some priorityHuge) 5).2 "t1").map
      TaskRow.Priority = some (-(2 ^ 63)) := by
  decide

/-! ### Creating a task and reading it back -/

theorem createTaskHandler_admin (s : Store) (userID : String) (task : Task) (now : Nat) :
    ∃ made, (createTaskHandler s "admin" userID (some task) now).1 = ⟨201, Body.task made⟩ ∧
      made.ID = toString s.nextId ∧ made.Title = task.Title ∧
      made.Description = task.Description ∧ made.State = task.State ∧
      made.Priority = task.Priority ∧
      (createTaskHandler s "admin" userID (some task) now).2.users = s.users ∧
      (createTaskHandler s "admin" userID (some task) now).2.tasks =
        s.tasks ++ [⟨toString s.nextId, task.Title, task.Description, task.State,
          task.Priority, some task.Assignee, userID, now, now⟩] := by
  by_cases ha : task.Assignee = ""
  · exact ⟨⟨toString s.nextId, task.Title, task.Description, task.State, task.Priority, "",
        task.Comments, now, now⟩, by simp [createTaskHandler, ha], rfl, rfl, rfl, rfl, rfl,
      by simp [createTaskHandler, ha], by simp [createTaskHandler, ha]⟩
  · cases hu : findUsername s task.Assignee with
    | none =>
      have hu2 : findUsername ⟨s.users, s.tasks ++ [⟨toString s.nextId, task.Title,
          task.Description, task.State, task.Priority, some task.Assignee, userID, now, now⟩],
          s.comments, s.notifications, s.nextId + 1⟩ task.Assignee = none := hu
      exact ⟨⟨toString s.nextId, task.Title, task.Description, task.State, task.Priority,
          task.Assignee, task.Comments, now, now⟩,
        by simp [createTaskHandler, ha, hu2], rfl, rfl, rfl, rfl, rfl,
        by simp [createTaskHandler, ha, insertNotification],
        by simp [createTaskHandler, ha, insertNotification]⟩
    | some name =>
      have hu2 : findUsername ⟨s.users, s.tasks ++ [⟨toString s.nextId, task.Title,
          task.Description, task.State, task.Priority, some task.Assignee, userID, now, now⟩],
          s.comments, s.notifications, s.nextId + 1⟩ task.Assignee = some name := hu
      exact ⟨⟨toString s.nextId, task.Title, task.Description, task.State, task.Priority,
          name, task.Comments, now, now⟩,
        by simp [createTaskHandler, ha, hu2], rfl, rfl, rfl, rfl, rfl,
        by simp [createTaskHandler, ha, insertNotification],
        by simp [createTaskHandler, ha, insertNotification]⟩

theorem getTaskHandler_of_found (s : Store) (taskID : String) (row : TaskRow)
    (h : findTask s taskID = some row) :
    getTaskHandler s taskID =
      ⟨200, Body.task ⟨row.ID, row.Title, row.Description, row.State, row.Priority,
        (row.Assignee.bind (findUsername s)).getD "", queryComments s taskID,
        row.CreatedAt, row.UpdatedAt⟩⟩ := by
  simp [getTaskHandler, h]

/-- C12: the admin creates a task whose assignee is the id of a user with
username `name`, and the id the store hands out is not the id of an earlier task
(task ids are a primary key).  Then `createTaskHandler` answers 201 with a task
`made`, and `getTaskHandler` on `made.ID` answers 200 with a task that has the id,
title, description, state and priority of `made` (those of the request), and
whose assignee is `name`, the username. -/
theorem createTask_getTask (s : Store) (userID : String) (task : Task) (now : Nat)
    (name : String) (hname : findUsername s task.Assignee = some name)
    (hfresh : findTask s (toString s.nextId) = none) :
    ∃ made got,
      (createTaskHandler s "admin" userID (some task) now).1 = ⟨201, Body.task made⟩ ∧
      getTaskHandler (createTaskHandler s "admin" userID (some task) now).2 made.ID =
        ⟨200, Body.task got⟩ ∧
      got.ID = made.ID ∧ got.Title = made.Title ∧ got.Description = made.Description ∧
      got.State = made.State ∧ got.Priority = made.Priority ∧
      made.Title = task.Title ∧ made.Description = task.Description ∧
      made.State = task.State ∧ made.Priority = task.Priority ∧
      got.Assignee = name := by
  rcases createTaskHandler_admin s userID task now with
    ⟨made, hresp, hid, htitle, hdesc, hstate, hprio, husers, htasks⟩
  have hfind : findTask (createTaskHandler s "admin" userID (some task) now).2 made.ID =
      some ⟨toString s.nextId, task.Title, task.Description, task.State, task.Priority,
        some task.Assignee, userID, now, now⟩ := by
    have hf := hfresh
    simp only [findTask] at hf ⊢
    rw [htasks, hid, List.find?_append, hf]
    simp
  have huser : findUsername (createTaskHandler s "admin" userID (some task) now).2
      task.Assignee = some name := by
    simp only [findUsername] at hname ⊢
    rw [husers]
    exact hname
  refine ⟨made, _, hresp, getTaskHandler_of_found _ _ _ hfind, hid.symm, htitle.symm,
    hdesc.symm, hstate.symm, hprio.symm, htitle, hdesc, hstate, hprio, ?_⟩
  simp [huser]

/-- Witness of C12: the admin `u1` creates a task for the user id `u2` on the
example store; the task read back is assigned to `alice`. -/
theorem createTask_getTask_witness :
    findUsername exStore "u2" = some "alice" ∧
    findTask exStore (toString exStore.nextId) = none ∧
    getTaskHandler (createTaskHandler exStore "admin" "u1" (some (newTask "Fix" "u2")) 5).2
        "10" =
      ⟨200, Body.task ⟨"10", "Fix", "", "todo", 1, "alice", [], 5, 5⟩⟩ ∧
    ∃ made got,
      (createTaskHandler exStore "admin" "u1" (some (newTask "Fix" "u2")) 5).1 =
        ⟨201, Body.task made⟩ ∧
      getTaskHandler (createTaskHandler exStore "admin" "u1" (some (newTask "Fix" "u2")) 5).2
        made.ID = ⟨200, Body.task got⟩ ∧
      got.ID = made.ID ∧ got.Assignee = "alice" :=
  ⟨by decide, by decide, by decide,
    (createTask_getTask exStore "u1" (newTask "Fix" "u2") 5 "alice" (by decide)
      (by decide)).elim
      (fun made h => h.elim (fun got hg => ⟨made, got, hg.1, hg.2.1, hg.2.2.1,
        hg.2.2.2.2.2.2.2.2.2.2.2⟩))⟩

end SmartBoard
